import Mathlib

/-!
Verification development for the core of a rigid-body physics engine:
rigid-body set maintenance, island extraction, velocity-constraint
assembly, coefficient combination and the one-way-platform contact hook.

Modelling conventions.
The scalar type `Real` of the source is modelled by the rationals: every
formula appearing in the verified code is an ordered-field expression
(additions, multiplications, divisions, `min`, `max`, `abs`), so its
structure is preserved exactly; floating-point rounding is outside the
model.  The build modelled is the 2D one (feature `dim2`): vectors have
two components, angular velocities and angular inertias are scalars, and
the tangent space of a contact is one-dimensional
(`MAX_MANIFOLD_POINTS = 2`).  Rust panics (`assert!`, `unreachable!`,
out-of-bounds indexing, indexing an arena with a stale handle) are
modelled by `Option`-returning functions that yield `none`.
-/

/-- Two-dimensional vector over the model scalars. -/
@[ext] structure Vec2 where
  x : ℚ
  y : ℚ
deriving DecidableEq, Inhabited

namespace Vec2

def add (v w : Vec2) : Vec2 := ⟨v.x + w.x, v.y + w.y⟩

def sub (v w : Vec2) : Vec2 := ⟨v.x - w.x, v.y - w.y⟩

def neg (v : Vec2) : Vec2 := ⟨-v.x, -v.y⟩

def smul (c : ℚ) (v : Vec2) : Vec2 := ⟨c * v.x, c * v.y⟩

/-- Dot product. -/
def dot (v w : Vec2) : ℚ := v.x * w.x + v.y * w.y

/-- Squared euclidean norm (`norm_squared` in nalgebra). -/
def norm_squared (v : Vec2) : ℚ := v.x * v.x + v.y * v.y

/-- 2D cross product of two vectors (the scalar z-component); this is
the `gcross` of `crate::utils::WCross` at `Vector2`. -/
def gcross (v w : Vec2) : ℚ := v.x * w.y - v.y * w.x

/-- 2D cross product of a scalar angular velocity with a vector; this is
the `gcross` of `crate::utils::WCross` at `(Real, Vector2)`. -/
def gcrossS (w : ℚ) (v : Vec2) : Vec2 := ⟨-w * v.y, w * v.x⟩

instance : Add Vec2 := ⟨add⟩
instance : Sub Vec2 := ⟨sub⟩
instance : Neg Vec2 := ⟨neg⟩
instance : SMul ℚ Vec2 := ⟨smul⟩
instance : Zero Vec2 := ⟨⟨0, 0⟩⟩

end Vec2

/-! ## Coefficient combination (`dynamics/coefficient_combine_rule.rs`) -/

/-- Rules used to combine two material coefficients. -/
inductive CoefficientCombineRule
  | Average
  | Min
  | Multiply
  | Max
deriving DecidableEq

namespace CoefficientCombineRule

/-- `CoefficientCombineRule::from_value`; the `_ => panic!` arm is
modelled by `none`. -/
def from_value (val : ℕ) : Option CoefficientCombineRule :=
  match val with
  | 0 => some .Average
  | 1 => some .Min
  | 2 => some .Multiply
  | 3 => some .Max
  | _ => none

/-- `CoefficientCombineRule::combine`.  The rule values are `u8` in the
source; they are modelled as `ℕ` (a superset, so totality statements
carry over). -/
def combine (coeff1 coeff2 : ℚ) (rule_value1 rule_value2 : ℕ) : ℚ :=
  match Nat.max rule_value1 rule_value2 with
  | 0 => (coeff1 + coeff2) / 2
  | 1 => min coeff1 coeff2
  | 2 => coeff1 * coeff2
  | _ => max coeff1 coeff2

/-- The operator named by a combine rule, as the specification reads it:
0 averages, 1 takes the minimum, 2 multiplies, 3 takes the maximum. -/
def applyRule (rule : CoefficientCombineRule) (c1 c2 : ℚ) : ℚ :=
  match rule with
  | .Average => (c1 + c2) / 2
  | .Min => min c1 c2
  | .Multiply => c1 * c2
  | .Max => max c1 c2

end CoefficientCombineRule

/-! ## Solver contacts and the one-way-platform hook
(`pipeline/physics_hooks.rs`) -/

/-- One solver contact of a contact manifold (the fields consumed by the
velocity-constraint builders and the contact-modification hook). -/
structure SolverContact where
  point : Vec2
  dist : ℚ
  friction : ℚ
  restitution : ℚ
  is_bouncy : Bool
  tangent_velocity : Vec2
  warmstart_impulse : ℚ
  warmstart_tangent_impulse : ℚ
  prev_rhs : ℚ
  contact_id : ℕ
deriving DecidableEq, Inhabited

/-- The part of `ContactModificationContext` read and written by
`update_as_oneway_platform`: the manifold local normal of the first
collider, the mutable solver-contact list, and the per-manifold `u32`
user slot. -/
structure ContactModificationContext where
  local_n1 : Vec2
  solver_contacts : List SolverContact
  user_data : ℕ
deriving DecidableEq

/-- `ContactModificationContext::update_as_oneway_platform`.

The source first computes `cang = cos(allowed_angle)` and uses it only in
the single comparison `local_n1.dot(allowed_local_n1) >= cang`; since the
cosine is not representable over the model scalars the function takes
`cang` directly.  The `_ => unreachable!()` arm is modelled by `none`.
State encoding of the source: 0 = UNKNOWN, 1 = ALLOWED, 2 = FORBIDDEN. -/
def update_as_oneway_platform (ctx : ContactModificationContext)
    (allowed_local_n1 : Vec2) (cang : ℚ) : Option ContactModificationContext :=
  let contact_is_ok := cang ≤ ctx.local_n1.dot allowed_local_n1
  match ctx.user_data with
  | 0 =>
    if contact_is_ok then
      some { ctx with user_data := 1 }
    else if 1 / 10 < ctx.local_n1.norm_squared then
      some { ctx with solver_contacts := [], user_data := 2 }
    else
      some { ctx with solver_contacts := [] }
  | 2 =>
    if contact_is_ok ∧ ∀ c ∈ ctx.solver_contacts, 0 < c.dist then
      some { ctx with user_data := 1 }
    else
      some { ctx with solver_contacts := [] }
  | 1 =>
    if ctx.solver_contacts.isEmpty then
      some { ctx with user_data := 0 }
    else
      some ctx
  | _ => none

/-! ## Rigid bodies (`dynamics/rigid_body.rs`, not part of the verified
sources; the record and its small helpers are modelled from the spec) -/

/-- The status of a rigid body. -/
inductive BodyStatus
  | Dynamic
  | Static
  | Kinematic
deriving DecidableEq, Inhabited

/-- Modelled from the spec: the per-body activation record
`{energy, threshold, sleeping}` (§3). -/
structure RigidBodyActivation where
  threshold : ℚ
  energy : ℚ
  sleeping : Bool
deriving DecidableEq, Inhabited

/-- Modelled from the spec: the change bitflags
`{POSITION, VELOCITY, SLEEP, COLLIDERS, BODY_STATUS, MODIFIED}` (§3),
modelled as one boolean per flag. -/
structure RigidBodyChanges where
  modified : Bool
  position : Bool
  velocity : Bool
  sleep : Bool
  colliders : Bool
  body_status : Bool
deriving DecidableEq, Inhabited

namespace RigidBodyChanges

/-- `RigidBodyChanges::all()`. -/
def all : RigidBodyChanges := ⟨true, true, true, true, true, true⟩

/-- `RigidBodyChanges::empty()`. -/
def empty : RigidBodyChanges := ⟨false, false, false, false, false, false⟩

end RigidBodyChanges

/-- Modelled from the spec: the `RigidBody` record (§3), restricted to
the fields read or written by the verified sources.  Handles are
`(slot index, generation)` pairs. -/
structure RigidBody where
  body_status : BodyStatus
  linvel : Vec2
  angvel : ℚ
  world_com : Vec2
  effective_inv_mass : ℚ
  effective_world_inv_inertia_sqrt : ℚ
  colliders : List ℕ
  joint_graph_index : ℕ
  active_island_id : ℕ
  active_set_id : ℕ
  active_set_offset : ℕ
  active_set_timestamp : ℕ
  activation : RigidBodyActivation
  changes : RigidBodyChanges
deriving DecidableEq, Inhabited

/-- A rigid-body handle: `(slot index, generation)`. -/
abbrev RigidBodyHandle := ℕ × ℕ

namespace RigidBody

@[reducible] def is_dynamic (rb : RigidBody) : Prop :=
  rb.body_status = BodyStatus.Dynamic

@[reducible] def is_static (rb : RigidBody) : Prop :=
  rb.body_status = BodyStatus.Static

@[reducible] def is_kinematic (rb : RigidBody) : Prop :=
  rb.body_status = BodyStatus.Kinematic

@[reducible] def is_sleeping (rb : RigidBody) : Prop :=
  rb.activation.sleeping = true

/-- Modelled from the spec: a body is moving when one of its velocities
is nonzero (§4.2: moving kinematic bodies wake their neighbors). -/
@[reducible] def is_moving (rb : RigidBody) : Prop :=
  rb.linvel ≠ 0 ∨ rb.angvel ≠ 0

/-- Modelled from the spec: `RigidBody::wake_up` clears `sleeping` and,
when `strong`, resets the energy accumulator so the body does not
immediately re-sleep (§4.1); the reset value is modelled as twice the
absolute sleep threshold. -/
def wake_up (rb : RigidBody) (strong : Bool) : RigidBody :=
  { rb with activation :=
      { rb.activation with
        sleeping := false
        energy := if strong then |rb.activation.threshold| * 2
                  else rb.activation.energy } }

/-- Modelled from the spec: putting a body to sleep zeroes its
velocities and sets `sleeping` (§4.2 step 5). -/
def sleep (rb : RigidBody) : RigidBody :=
  { rb with linvel := 0, angvel := 0
            activation := { rb.activation with sleeping := true } }

/-- Modelled from the spec: `RigidBody::update_energy` recomputes the
per-body kinetic-energy accumulator (§2 step 7).  The energy formula is
not part of the verified sources, so it is abstracted as a function `E`
of the body; only `activation.energy` is written. -/
def update_energy (E : RigidBody → ℚ) (rb : RigidBody) : RigidBody :=
  { rb with activation := { rb.activation with energy := E rb } }

/-- Modelled from the spec: `reset_internal_references` clears the
cached cross-references of a body (§4.1 insert). -/
def reset_internal_references (rb : RigidBody) : RigidBody :=
  { rb with colliders := [], joint_graph_index := 0 }

end RigidBody

/-! ## Integration parameters (`dynamics/integration_parameters.rs`, not
part of the verified sources) -/

/-- Modelled from the spec: the `IntegrationParameters` options consumed
by the velocity-constraint builders (§6). -/
structure IntegrationParameters where
  dt : ℚ
  velocity_solve_fraction : ℚ
  velocity_based_erp : ℚ
  warmstart_coeff : ℚ
  warmstart_correction_slope : ℚ
deriving DecidableEq, Inhabited

namespace IntegrationParameters

/-- Modelled from the spec: `inv_dt()` is the cached inverse timestep. -/
def inv_dt (p : IntegrationParameters) : ℚ := 1 / p.dt

/-- Modelled from the spec: `velocity_based_erp_inv_dt()` is the
velocity-based error-reduction parameter divided by the timestep. -/
def velocity_based_erp_inv_dt (p : IntegrationParameters) : ℚ :=
  p.velocity_based_erp * p.inv_dt

end IntegrationParameters

/-! ## Contact manifolds (consumed by the solver) -/

/-- The manifold data consumed by the velocity-constraint builders. -/
structure ContactManifoldData where
  body_pair : RigidBodyHandle × RigidBodyHandle
  warmstart_multiplier : ℚ
  constraint_index : ℕ
  relative_dominance : ℤ
  normal : Vec2
  solver_contacts : List SolverContact
deriving DecidableEq

/-- A contact manifold (only the solver-facing `data` part is
modelled). -/
structure ContactManifold where
  data : ContactManifoldData
deriving DecidableEq

/-- Modelled from the spec: `num_active_contacts()` is the number of
solver contacts of the manifold. -/
def ContactManifoldData.num_active_contacts (d : ContactManifoldData) : ℕ :=
  d.solver_contacts.length

/-- `MAX_MANIFOLD_POINTS` of the 2D build. -/
def MAX_MANIFOLD_POINTS : ℕ := 2

/-- `slice.chunks(MAX_MANIFOLD_POINTS)` for the 2D value
`MAX_MANIFOLD_POINTS = 2`: the list of successive chunks of at most two
elements (each chunk nonempty when the input is). -/
def chunks2 {α : Type} : List α → List (List α)
  | [] => []
  | [a] => [[a]]
  | a :: b :: rest => [a, b] :: chunks2 rest

/-! ## Scalar ground velocity constraints
(`dynamics/solver/velocity_ground_constraint.rs`, 2D build) -/

@[ext] structure VelocityGroundConstraintNormalPart where
  gcross2 : ℚ
  rhs : ℚ
  impulse : ℚ
  r : ℚ
deriving DecidableEq

@[ext] structure VelocityGroundConstraintTangentPart where
  gcross2 : ℚ
  rhs : ℚ
  impulse : ℚ
  r : ℚ
deriving DecidableEq

@[ext] structure VelocityGroundConstraintElement where
  normal_part : VelocityGroundConstraintNormalPart
  tangent_part : VelocityGroundConstraintTangentPart
deriving DecidableEq

/-- A scalar ground velocity constraint.  The fixed-size element array
`[_; MAX_MANIFOLD_POINTS]` of the source, zero-filled past
`num_contacts`, is modelled as the list of its first `num_contacts`
entries (only those are ever read); likewise `manifold_contact_id`. -/
@[ext] structure VelocityGroundConstraint where
  mj_lambda2 : ℕ
  dir1 : Vec2
  im2 : ℚ
  limit : ℚ
  elements : List VelocityGroundConstraintElement
  manifold_id : ℕ
  manifold_contact_id : List ℕ
  num_contacts : ℕ
deriving DecidableEq

namespace VelocityGroundConstraint

/-- The per-contact-point body of the `for k in 0..manifold_points.len()`
loop of `VelocityGroundConstraint::generate` (2D build): builds the
normal and tangent parts of one element. -/
def solver_element (params : IntegrationParameters) (warmstart_coeff : ℚ)
    (rb1 rb2 : RigidBody) (force_dir1 tangent1 : Vec2)
    (flipped_multiplier : ℚ) (p : SolverContact) :
    VelocityGroundConstraintElement :=
  let dp2 := p.point - rb2.world_com
  let dp1 := p.point - rb1.world_com
  let vel1 := rb1.linvel + Vec2.gcrossS rb1.angvel dp1
  let vel2 := rb2.linvel + Vec2.gcrossS rb2.angvel dp2
  let gcross2 := rb2.effective_world_inv_inertia_sqrt * Vec2.gcross dp2 (-force_dir1)
  let r := 1 / (rb2.effective_inv_mass + gcross2 * gcross2)
  let is_bouncy : ℚ := if p.is_bouncy then 1 else 0
  let is_resting : ℚ := 1 - is_bouncy
  let rhs0 := (1 + is_bouncy * p.restitution) * Vec2.dot (vel1 - vel2) force_dir1
  let rhs1 := rhs0 + max p.dist 0 * params.inv_dt
  let rhs2 := rhs1 * (is_bouncy + is_resting * params.velocity_solve_fraction)
  let rhs := rhs2 + is_resting * params.velocity_based_erp_inv_dt * min p.dist 0
  let warmstart_correction :=
    min (params.warmstart_correction_slope / |rhs - p.prev_rhs|) warmstart_coeff
  let gcross2t := rb2.effective_world_inv_inertia_sqrt * Vec2.gcross dp2 (-tangent1)
  let rt := 1 / (rb2.effective_inv_mass + gcross2t * gcross2t)
  let rhst := Vec2.dot (vel1 - vel2 + flipped_multiplier • p.tangent_velocity) tangent1
  { normal_part :=
      { gcross2 := gcross2
        rhs := rhs
        impulse := p.warmstart_impulse * warmstart_correction
        r := r }
    tangent_part :=
      { gcross2 := gcross2t
        rhs := rhst
        impulse := p.warmstart_tangent_impulse * warmstart_correction
        r := rt } }

/-- `VelocityGroundConstraint::generate` (2D build, `push = true` path):
the list of constraints pushed to `out_constraints`, one per chunk of at
most `MAX_MANIFOLD_POINTS` solver contacts.  The 2D orthonormal tangent
basis `force_dir1.orthonormal_basis()` comes from `crate::utils`, which
is not part of the verified sources; it is taken as an abstract function
`ob` of the force direction. -/
def generate (ob : Vec2 → Vec2) (params : IntegrationParameters)
    (manifold_id : ℕ) (manifold : ContactManifold)
    (bodies : RigidBodyHandle → RigidBody) : List VelocityGroundConstraint :=
  let body1 := bodies manifold.data.body_pair.1
  let body2 := bodies manifold.data.body_pair.2
  let flipped := manifold.data.relative_dominance < 0
  let rb1 := if flipped then body2 else body1
  let rb2 := if flipped then body1 else body2
  let force_dir1 := if flipped then manifold.data.normal else -manifold.data.normal
  let flipped_multiplier : ℚ := if flipped then -1 else 1
  let tangents1 := ob force_dir1
  let mj_lambda2 := rb2.active_set_offset
  let warmstart_coeff := manifold.data.warmstart_multiplier * params.warmstart_coeff
  (chunks2 manifold.data.solver_contacts).map fun manifold_points =>
    { mj_lambda2 := mj_lambda2
      dir1 := force_dir1
      im2 := rb2.effective_inv_mass
      limit := manifold_points.foldl (fun _ p => p.friction) 0
      elements := manifold_points.map
        (solver_element params warmstart_coeff rb1 rb2 force_dir1 tangents1
          flipped_multiplier)
      manifold_id := manifold_id
      manifold_contact_id := manifold_points.map (fun p => p.contact_id)
      num_contacts := manifold_points.length }

end VelocityGroundConstraint

/-! ## Scalar two-body velocity constraints
(`dynamics/solver/velocity_constraint.rs`, 2D build) -/

@[ext] structure VelocityConstraintNormalPart where
  gcross1 : ℚ
  gcross2 : ℚ
  rhs : ℚ
  impulse : ℚ
  r : ℚ
deriving DecidableEq

@[ext] structure VelocityConstraintTangentPart where
  gcross1 : ℚ
  gcross2 : ℚ
  rhs : ℚ
  impulse : ℚ
  r : ℚ
deriving DecidableEq

@[ext] structure VelocityConstraintElement where
  normal_part : VelocityConstraintNormalPart
  tangent_part : VelocityConstraintTangentPart
deriving DecidableEq

/-- A scalar two-body velocity constraint (element arrays modelled as
lists as for the ground form). -/
@[ext] structure VelocityConstraint where
  dir1 : Vec2
  im1 : ℚ
  im2 : ℚ
  limit : ℚ
  mj_lambda1 : ℕ
  mj_lambda2 : ℕ
  manifold_id : ℕ
  manifold_contact_id : List ℕ
  num_contacts : ℕ
  elements : List VelocityConstraintElement
deriving DecidableEq

namespace VelocityConstraint

/-- The per-contact-point body of the inner loop of
`VelocityConstraint::generate` (2D build). -/
def solver_element (params : IntegrationParameters) (warmstart_coeff : ℚ)
    (rb1 rb2 : RigidBody) (force_dir1 tangent1 : Vec2) (p : SolverContact) :
    VelocityConstraintElement :=
  let dp1 := p.point - rb1.world_com
  let dp2 := p.point - rb2.world_com
  let vel1 := rb1.linvel + Vec2.gcrossS rb1.angvel dp1
  let vel2 := rb2.linvel + Vec2.gcrossS rb2.angvel dp2
  let gcross1 := rb1.effective_world_inv_inertia_sqrt * Vec2.gcross dp1 force_dir1
  let gcross2 := rb2.effective_world_inv_inertia_sqrt * Vec2.gcross dp2 (-force_dir1)
  let r := 1 / (rb1.effective_inv_mass + rb2.effective_inv_mass
      + gcross1 * gcross1 + gcross2 * gcross2)
  let is_bouncy : ℚ := if p.is_bouncy then 1 else 0
  let is_resting : ℚ := 1 - is_bouncy
  let rhs0 := (1 + is_bouncy * p.restitution) * Vec2.dot (vel1 - vel2) force_dir1
  let rhs1 := rhs0 + max p.dist 0 * params.inv_dt
  let rhs2 := rhs1 * (is_bouncy + is_resting * params.velocity_solve_fraction)
  let rhs := rhs2 + is_resting * params.velocity_based_erp_inv_dt * min p.dist 0
  let warmstart_correction :=
    min (params.warmstart_correction_slope / |rhs - p.prev_rhs|) warmstart_coeff
  let gcross1t := rb1.effective_world_inv_inertia_sqrt * Vec2.gcross dp1 tangent1
  let gcross2t := rb2.effective_world_inv_inertia_sqrt * Vec2.gcross dp2 (-tangent1)
  let rt := 1 / (rb1.effective_inv_mass + rb2.effective_inv_mass
      + gcross1t * gcross1t + gcross2t * gcross2t)
  let rhst := Vec2.dot (vel1 - vel2 + p.tangent_velocity) tangent1
  { normal_part :=
      { gcross1 := gcross1
        gcross2 := gcross2
        rhs := rhs
        impulse := p.warmstart_impulse * warmstart_correction
        r := r }
    tangent_part :=
      { gcross1 := gcross1t
        gcross2 := gcross2t
        rhs := rhst
        impulse := p.warmstart_tangent_impulse * warmstart_correction
        r := rt } }

/-- `VelocityConstraint::generate` (2D build, `push = true` path).  The
`assert_eq!(manifold.data.relative_dominance, 0)` of the source is
modelled by returning `none` when the dominance is nonzero. -/
def generate (ob : Vec2 → Vec2) (params : IntegrationParameters)
    (manifold_id : ℕ) (manifold : ContactManifold)
    (bodies : RigidBodyHandle → RigidBody) : Option (List VelocityConstraint) :=
  if manifold.data.relative_dominance = 0 then
    let rb1 := bodies manifold.data.body_pair.1
    let rb2 := bodies manifold.data.body_pair.2
    let mj_lambda1 := rb1.active_set_offset
    let mj_lambda2 := rb2.active_set_offset
    let force_dir1 := -manifold.data.normal
    let warmstart_coeff := manifold.data.warmstart_multiplier * params.warmstart_coeff
    let tangents1 := ob force_dir1
    some ((chunks2 manifold.data.solver_contacts).map fun manifold_points =>
      { dir1 := force_dir1
        im1 := rb1.effective_inv_mass
        im2 := rb2.effective_inv_mass
        limit := manifold_points.foldl (fun _ p => p.friction) 0
        mj_lambda1 := mj_lambda1
        mj_lambda2 := mj_lambda2
        manifold_id := manifold_id
        manifold_contact_id := manifold_points.map (fun p => p.contact_id)
        num_contacts := manifold_points.length
        elements := manifold_points.map
          (solver_element params warmstart_coeff rb1 rb2 force_dir1 tangents1) })
  else none

end VelocityConstraint

/-! ## SIMD-wide ground velocity constraints
(`dynamics/solver/velocity_ground_constraint_wide.rs`, 2D build).
`SimdReal` is modelled as a lane-indexed family of scalars
(`Fin SIMD_WIDTH → ℚ`); all SIMD arithmetic of the source
(`splat`, lane-wise `+`, `*`, `simd_min`, `simd_max`, `simd_abs`) is
lane-wise, and the generic 2D basis and cross-product helpers are
branch-free component arithmetic, hence also lane-wise. -/

/-- The SIMD lane count of the model. -/
abbrev SIMD_WIDTH : ℕ := 4

structure WVelocityGroundConstraintNormalPart where
  gcross2 : Fin SIMD_WIDTH → ℚ
  rhs : Fin SIMD_WIDTH → ℚ
  impulse : Fin SIMD_WIDTH → ℚ
  r : Fin SIMD_WIDTH → ℚ

structure WVelocityGroundConstraintTangentPart where
  gcross2 : Fin SIMD_WIDTH → ℚ
  rhs : Fin SIMD_WIDTH → ℚ
  impulse : Fin SIMD_WIDTH → ℚ
  r : Fin SIMD_WIDTH → ℚ

structure WVelocityGroundConstraintElement where
  normal_part : WVelocityGroundConstraintNormalPart
  tangent_part : WVelocityGroundConstraintTangentPart

/-- A SIMD-wide ground velocity constraint (2D build); per-lane scalars
are lane-indexed families. -/
structure WVelocityGroundConstraint where
  dir1 : Fin SIMD_WIDTH → Vec2
  elements : List WVelocityGroundConstraintElement
  num_contacts : ℕ
  im2 : Fin SIMD_WIDTH → ℚ
  limit : Fin SIMD_WIDTH → ℚ
  mj_lambda2 : Fin SIMD_WIDTH → ℕ
  manifold_id : Fin SIMD_WIDTH → ℕ
  manifold_contact_id : List (Fin SIMD_WIDTH → ℕ)

namespace WVelocityGroundConstraint

/-- The per-contact-point body of the `for k in 0..num_points` loop of
`WVelocityGroundConstraint::generate` (2D build), with the arithmetic in
the order the wide source performs it. -/
def solver_element (params : IntegrationParameters)
    (warmstart_coeff : Fin SIMD_WIDTH → ℚ)
    (rbs1 rbs2 : Fin SIMD_WIDTH → RigidBody)
    (force_dir1 tangents1 : Fin SIMD_WIDTH → Vec2)
    (flipped_sign : Fin SIMD_WIDTH → ℚ)
    (p : Fin SIMD_WIDTH → SolverContact) : WVelocityGroundConstraintElement :=
  let dp2 := fun ii => (p ii).point - (rbs2 ii).world_com
  let dp1 := fun ii => (p ii).point - (rbs1 ii).world_com
  let vel1 := fun ii => (rbs1 ii).linvel + Vec2.gcrossS (rbs1 ii).angvel (dp1 ii)
  let vel2 := fun ii => (rbs2 ii).linvel + Vec2.gcrossS (rbs2 ii).angvel (dp2 ii)
  let gcross2 := fun ii =>
    (rbs2 ii).effective_world_inv_inertia_sqrt * Vec2.gcross (dp2 ii) (-(force_dir1 ii))
  let r := fun ii =>
    1 / ((rbs2 ii).effective_inv_mass + gcross2 ii * gcross2 ii)
  let is_bouncy : Fin SIMD_WIDTH → ℚ := fun ii => if (p ii).is_bouncy then 1 else 0
  let is_resting := fun ii => 1 - is_bouncy ii
  let projected_velocity := fun ii => Vec2.dot (vel1 ii - vel2 ii) (force_dir1 ii)
  let rhs0 := fun ii => (1 + is_bouncy ii * (p ii).restitution) * projected_velocity ii
  let rhs1 := fun ii => rhs0 ii + max (p ii).dist 0 * params.inv_dt
  let rhs2 := fun ii =>
    rhs1 ii * (is_bouncy ii + is_resting ii * params.velocity_solve_fraction)
  let rhs := fun ii =>
    rhs2 ii + min (p ii).dist 0 * (params.velocity_based_erp_inv_dt * is_resting ii)
  let warmstart_correction := fun ii =>
    min (params.warmstart_correction_slope / |rhs ii - (p ii).prev_rhs|)
      (warmstart_coeff ii)
  let gcross2t := fun ii =>
    (rbs2 ii).effective_world_inv_inertia_sqrt * Vec2.gcross (dp2 ii) (-(tangents1 ii))
  let rt := fun ii =>
    1 / ((rbs2 ii).effective_inv_mass + gcross2t ii * gcross2t ii)
  let rhst := fun ii =>
    Vec2.dot (vel1 ii - vel2 ii + flipped_sign ii • (p ii).tangent_velocity)
      (tangents1 ii)
  { normal_part :=
      { gcross2 := gcross2
        rhs := rhs
        impulse := fun ii => (p ii).warmstart_impulse * warmstart_correction ii
        r := r }
    tangent_part :=
      { gcross2 := gcross2t
        rhs := rhst
        impulse := fun ii => (p ii).warmstart_tangent_impulse * warmstart_correction ii
        r := rt } }

/-- The lane-aligned contact points of one wide chunk: for each
`k < num_points` the family of the `k`-th remaining contact of every
lane.  A lane shorter than `num_points` is an out-of-bounds SIMD gather
in the source, modelled by `none`. -/
def lanePoints (rem : Fin SIMD_WIDTH → List SolverContact) (num_points : ℕ) :
    Option (List (Fin SIMD_WIDTH → SolverContact)) :=
  (List.range num_points).mapM fun k =>
    if h : ∀ ii, k < (rem ii).length then
      some (fun ii => (rem ii).get ⟨k, h ii⟩)
    else none

/-- The `for l in (0..num_active_contacts).step_by(MAX_MANIFOLD_POINTS)`
loop of `WVelocityGroundConstraint::generate`: lane 0 drives the
iteration count and the per-chunk point count, every lane is advanced by
`MAX_MANIFOLD_POINTS` points per iteration. -/
def generateLoop (params : IntegrationParameters)
    (warmstart_coeff : Fin SIMD_WIDTH → ℚ)
    (rbs1 rbs2 : Fin SIMD_WIDTH → RigidBody)
    (force_dir1 tangents1 : Fin SIMD_WIDTH → Vec2)
    (flipped_sign : Fin SIMD_WIDTH → ℚ)
    (im2 : Fin SIMD_WIDTH → ℚ)
    (mj_lambda2 : Fin SIMD_WIDTH → ℕ)
    (manifold_id : Fin SIMD_WIDTH → ℕ)
    (rem : Fin SIMD_WIDTH → List SolverContact) :
    Option (List WVelocityGroundConstraint) :=
  if hrem : rem 0 = [] then some []
  else
    match lanePoints rem (min (rem 0).length MAX_MANIFOLD_POINTS) with
    | none => none
    | some points =>
      match generateLoop params warmstart_coeff rbs1 rbs2 force_dir1 tangents1
          flipped_sign im2 mj_lambda2 manifold_id
          (fun ii => (rem ii).drop MAX_MANIFOLD_POINTS) with
      | none => none
      | some rest =>
        some
          ({ dir1 := force_dir1
             elements := points.map
               (solver_element params warmstart_coeff rbs1 rbs2 force_dir1 tangents1
                 flipped_sign)
             num_contacts := min (rem 0).length MAX_MANIFOLD_POINTS
             im2 := im2
             limit := points.foldl (fun _ p ii => (p ii).friction) (fun _ => 0)
             mj_lambda2 := mj_lambda2
             manifold_id := manifold_id
             manifold_contact_id := points.map (fun p ii => (p ii).contact_id) } :: rest)
termination_by (rem 0).length
decreasing_by
  have hpos : 0 < (rem 0).length := List.length_pos.mpr hrem
  simp only [List.length_drop, MAX_MANIFOLD_POINTS]
  omega

/-- `WVelocityGroundConstraint::generate` (2D build, `push = true`
path).  The per-lane body swap, the flipped sign, and the
`normal1 * -flipped_sign` force direction mirror the wide source; the
abstract 2D tangent basis `ob` is applied lane-wise, as the generic
branch-free basis of `crate::utils` is on SIMD scalars. -/
def generate (ob : Vec2 → Vec2) (params : IntegrationParameters)
    (manifold_id : Fin SIMD_WIDTH → ℕ)
    (manifolds : Fin SIMD_WIDTH → ContactManifold)
    (bodies : RigidBodyHandle → RigidBody) :
    Option (List WVelocityGroundConstraint) :=
  let flipped_sign : Fin SIMD_WIDTH → ℚ := fun ii =>
    if (manifolds ii).data.relative_dominance < 0 then -1 else 1
  let rbs1 := fun ii =>
    if (manifolds ii).data.relative_dominance < 0 then
      bodies (manifolds ii).data.body_pair.2
    else bodies (manifolds ii).data.body_pair.1
  let rbs2 := fun ii =>
    if (manifolds ii).data.relative_dominance < 0 then
      bodies (manifolds ii).data.body_pair.1
    else bodies (manifolds ii).data.body_pair.2
  let im2 := fun ii => (rbs2 ii).effective_inv_mass
  let force_dir1 := fun ii => (-(flipped_sign ii)) • (manifolds ii).data.normal
  let mj_lambda2 := fun ii => (rbs2 ii).active_set_offset
  let warmstart_coeff := fun ii =>
    (manifolds ii).data.warmstart_multiplier * params.warmstart_coeff
  let tangents1 := fun ii => ob (force_dir1 ii)
  generateLoop params warmstart_coeff rbs1 rbs2 force_dir1 tangents1 flipped_sign
    im2 mj_lambda2 manifold_id
    (fun ii => (manifolds ii).data.solver_contacts)

end WVelocityGroundConstraint

/-- Extraction of one element lane from a wide ground element. -/
def WVelocityGroundConstraintElement.extract (ii : Fin SIMD_WIDTH)
    (e : WVelocityGroundConstraintElement) : VelocityGroundConstraintElement :=
  { normal_part :=
      { gcross2 := e.normal_part.gcross2 ii
        rhs := e.normal_part.rhs ii
        impulse := e.normal_part.impulse ii
        r := e.normal_part.r ii }
    tangent_part :=
      { gcross2 := e.tangent_part.gcross2 ii
        rhs := e.tangent_part.rhs ii
        impulse := e.tangent_part.impulse ii
        r := e.tangent_part.r ii } }

/-- Extraction of one lane from a wide ground constraint: the scalar
constraint the lane represents. -/
def WVelocityGroundConstraint.extract (ii : Fin SIMD_WIDTH)
    (c : WVelocityGroundConstraint) : VelocityGroundConstraint :=
  { mj_lambda2 := c.mj_lambda2 ii
    dir1 := c.dir1 ii
    im2 := c.im2 ii
    limit := c.limit ii
    elements := c.elements.map (WVelocityGroundConstraintElement.extract ii)
    manifold_id := c.manifold_id ii
    manifold_contact_id := c.manifold_contact_id.map (fun f => f ii)
    num_contacts := c.num_contacts }

/-! ## Specification-side formulas for the contact right-hand side
(these two definitions follow the wording of the specification, to be
compared with the source-derived builders) -/

/-- The normal right-hand side as the specification words it: the first
two summands weighted by `is_bouncy + is_resting · velocity_solve_fraction`,
plus the velocity-based ERP term, with the divisions written over `dt`. -/
def normal_rhs_spec (params : IntegrationParameters) (p : SolverContact)
    (vn : ℚ) : ℚ :=
  let b : ℚ := if p.is_bouncy then 1 else 0
  let resting : ℚ := 1 - b
  ((1 + b * p.restitution) * vn + max p.dist 0 / params.dt)
      * (b + resting * params.velocity_solve_fraction)
    + resting * params.velocity_based_erp * (min p.dist 0 / params.dt)

/-- The warmstarted normal impulse as the specification words it: the
stored previous impulse times
`min(slope / |rhs − prev_rhs|, warmstart_coeff · warmstart_multiplier)`. -/
def warmstart_impulse_spec (params : IntegrationParameters)
    (warmstart_multiplier : ℚ) (p : SolverContact) (rhs : ℚ) : ℚ :=
  p.warmstart_impulse *
    min (params.warmstart_correction_slope / |rhs - p.prev_rhs|)
      (params.warmstart_coeff * warmstart_multiplier)

/-- The claimed normal right-hand side and warmstarted normal impulse of
one ground solver contact, following the specification wording: the
velocities and the force direction are taken after the dominance-driven
body swap (§4.3: the dominance decides which body is the movable one). -/
def ground_normal_parts_spec (params : IntegrationParameters)
    (manifold : ContactManifold) (bodies : RigidBodyHandle → RigidBody)
    (p : SolverContact) : ℚ × ℚ :=
  let body1 := bodies manifold.data.body_pair.1
  let body2 := bodies manifold.data.body_pair.2
  let flipped := manifold.data.relative_dominance < 0
  let rb1 := if flipped then body2 else body1
  let rb2 := if flipped then body1 else body2
  let n := if flipped then manifold.data.normal else -manifold.data.normal
  let vel1 := rb1.linvel + Vec2.gcrossS rb1.angvel (p.point - rb1.world_com)
  let vel2 := rb2.linvel + Vec2.gcrossS rb2.angvel (p.point - rb2.world_com)
  let rhs := normal_rhs_spec params p (Vec2.dot (vel1 - vel2) n)
  (rhs, warmstart_impulse_spec params manifold.data.warmstart_multiplier p rhs)

/-- The claimed normal right-hand side and warmstarted normal impulse of
one two-body solver contact, following the specification wording. -/
def twobody_normal_parts_spec (params : IntegrationParameters)
    (manifold : ContactManifold) (bodies : RigidBodyHandle → RigidBody)
    (p : SolverContact) : ℚ × ℚ :=
  let rb1 := bodies manifold.data.body_pair.1
  let rb2 := bodies manifold.data.body_pair.2
  let n := -manifold.data.normal
  let vel1 := rb1.linvel + Vec2.gcrossS rb1.angvel (p.point - rb1.world_com)
  let vel2 := rb2.linvel + Vec2.gcrossS rb2.angvel (p.point - rb2.world_com)
  let rhs := normal_rhs_spec params p (Vec2.dot (vel1 - vel2) n)
  (rhs, warmstart_impulse_spec params manifold.data.warmstart_multiplier p rhs)

/-! ## The generational body arena (`data/arena.rs`, not part of the
verified sources; modelled from the spec, §3 Handle) -/

/-- One slot of the arena: its current generation and its occupant. -/
structure ArenaEntry where
  generation : ℕ
  value : Option RigidBody
deriving DecidableEq

/-- Modelled from the spec: a generational arena.  Handles are
`(slot index, generation)` pairs; `generation` is the arena-wide counter
used for new allocations and bumped on removal, so a reused slot yields
a fresh generation and stale handles reliably miss lookups. -/
structure Arena where
  items : List ArenaEntry
  generation : ℕ
deriving DecidableEq

/-- In-place update of one list position (identity out of range). -/
def listModify {α : Type} : List α → ℕ → (α → α) → List α
  | [], _, _ => []
  | a :: rest, 0, f => f a :: rest
  | a :: rest, n + 1, f => a :: listModify rest n f

namespace Arena

/-- Lookup with generation check (`Arena::get`); stale handles miss. -/
def get (a : Arena) (h : RigidBodyHandle) : Option RigidBody :=
  match a.items.get? h.1 with
  | none => none
  | some e => if e.generation = h.2 then e.value else none

/-- `Arena::get_mut`-based in-place update: no effect when the handle is
stale (the callers that instead index and would panic are modelled at
their call sites). -/
def modifyBody (a : Arena) (h : RigidBodyHandle) (f : RigidBody → RigidBody) :
    Arena :=
  { a with items := listModify a.items h.1 (fun e =>
      if e.generation = h.2 then { e with value := e.value.map f } else e) }

/-- First free slot index, if any. -/
def findFreeIdx : List ArenaEntry → Option ℕ
  | [] => none
  | e :: rest =>
    if e.value.isNone then some 0 else (findFreeIdx rest).map (· + 1)

/-- Modelled from the spec: insertion reuses a free slot (or appends)
and stamps it with the arena generation, which becomes the handle
generation. -/
def insert (a : Arena) (rb : RigidBody) : Arena × RigidBodyHandle :=
  match findFreeIdx a.items with
  | some i =>
    ({ a with items := a.items.set i ⟨a.generation, some rb⟩ }, (i, a.generation))
  | none =>
    ({ a with items := a.items ++ [⟨a.generation, some rb⟩] },
      (a.items.length, a.generation))

/-- Modelled from the spec: removal frees the slot and bumps the arena
generation (ABA protection). -/
def remove (a : Arena) (h : RigidBodyHandle) : Arena × Option RigidBody :=
  match a.get h with
  | none => (a, none)
  | some rb =>
    ({ items := listModify a.items h.1 (fun e => { e with value := none }),
       generation := a.generation + 1 }, some rb)

/-- The occupied handles in slot order (`Arena::iter`). -/
def occupiedHandles (a : Arena) : List RigidBodyHandle :=
  a.items.enum.filterMap fun ie =>
    if ie.2.value.isSome then some (ie.1, ie.2.generation) else none

end Arena

/-! ## Colliders, narrow phase and joint graph (consumed views) -/

/-- The collider view the verified operations need: the parent body. -/
structure Collider where
  parent : RigidBodyHandle
deriving DecidableEq

/-- The collider set, as the total parent-lookup the island extractor
uses (`colliders[other].parent`); collider world poses are geometry and
outside the model, so `update_colliders_positions` acts as the identity
on this view. -/
structure ColliderSet where
  parent : ℕ → RigidBodyHandle

/-- A contact pair of the narrow phase: its manifolds. -/
structure ContactPair where
  manifolds : List ContactManifold

/-- The narrow phase, as the `contacts_with` view used by the island
extractor: for a collider, the interactions `(collider1, collider2,
pair)` it takes part in. -/
structure NarrowPhase where
  contacts_with : ℕ → List (ℕ × ℕ × ContactPair)

/-- The joint interaction graph, as the `interactions_with` view used by
the island extractor: for a graph vertex, the body-pair endpoints of the
incident joint edges. -/
structure JointGraph where
  interactions_with : ℕ → List (RigidBodyHandle × RigidBodyHandle)

/-- `crate::utils::select_other`: the element of the pair that is not
`x`. -/
def select_other {α : Type} [DecidableEq α] (pair : α × α) (x : α) : α :=
  if pair.1 = x then pair.2 else pair.1

/-! ## The rigid-body set (`dynamics/rigid_body_set.rs`) -/

/-- `RigidBodySet`.  The `stack` is modelled with its head as the top
(pushing a freshly generated list `L` of handles in order prepends
`L.reverse`). -/
structure RigidBodySet where
  bodies : Arena
  active_dynamic_set : List RigidBodyHandle
  active_kinematic_set : List RigidBodyHandle
  modified_inactive_set : List RigidBodyHandle
  active_islands : List ℕ
  active_set_timestamp : ℕ
  modified_bodies : List RigidBodyHandle
  modified_all_bodies : Bool
  can_sleep : List RigidBodyHandle
  stack : List RigidBodyHandle

/-- `Vec::swap_remove(i)`: remove position `i`, moving the last element
into it. -/
def swap_remove {α : Type} (l : List α) (i : ℕ) : List α :=
  match l.getLast? with
  | none => []
  | some last => (l.set i last).dropLast

namespace RigidBodySet

/-- `RigidBodySet::insert`. -/
def insert (s : RigidBodySet) (rb0 : RigidBody) : RigidBodySet × RigidBodyHandle :=
  let rb := { rb0.reset_internal_references with changes := RigidBodyChanges.all }
  let bodies1 := (s.bodies.insert rb).1
  let handle := (s.bodies.insert rb).2
  let s1 := { s with bodies := bodies1
                     modified_bodies := s.modified_bodies ++ [handle] }
  if rb.is_kinematic then
    ({ s1 with
        bodies := s1.bodies.modifyBody handle
          (fun b => { b with active_set_id := s1.active_kinematic_set.length })
        active_kinematic_set := s1.active_kinematic_set ++ [handle] }, handle)
  else (s1, handle)

/-- The per-active-set part of `RigidBodySet::remove`: swap-remove the
handle when it sits at its recorded id, then re-patch the displaced
handle's `active_set_id` (the source indexes the arena for the patch and
would panic on a stale displaced handle; `modifyBody` is a no-op
there). -/
def removeFromActiveSet (bodies : Arena) (active_set : List RigidBodyHandle)
    (rb_id : ℕ) (handle : RigidBodyHandle) : Arena × List RigidBodyHandle :=
  if active_set.get? rb_id = some handle then
    let set1 := swap_remove active_set rb_id
    match set1.get? rb_id with
    | some replacement =>
      (bodies.modifyBody replacement (fun b => { b with active_set_id := rb_id }),
        set1)
    | none => (bodies, set1)
  else (bodies, active_set)

/-- `RigidBodySet::remove` (the part operating on this state).  The
collider and joint cascade (`ColliderSet::remove` for each attached
collider, `JointSet::remove_rigid_body`) lives outside the verified
sources; its only effects on this state are `wake_up` calls on other
bodies, which are covered by the `wake_up` operation.  The source
processes the kinematic set first, then the dynamic one. -/
def remove (s : RigidBodySet) (handle : RigidBodyHandle) :
    RigidBodySet × Option RigidBody :=
  match s.bodies.remove handle with
  | (_, none) => (s, none)
  | (bodies1, some rb) =>
    match removeFromActiveSet bodies1 s.active_kinematic_set rb.active_set_id
        handle with
    | (bodies2, kin1) =>
      match removeFromActiveSet bodies2 s.active_dynamic_set rb.active_set_id
          handle with
      | (bodies3, dyn1) =>
        ({ s with bodies := bodies3
                  active_kinematic_set := kin1
                  active_dynamic_set := dyn1 }, some rb)

/-- `RigidBodySet::wake_up`: dynamic bodies only. -/
def wake_up (s : RigidBodySet) (handle : RigidBodyHandle) (strong : Bool) :
    RigidBodySet :=
  match s.bodies.get handle with
  | none => s
  | some rb =>
    if rb.is_dynamic then
      if s.active_dynamic_set.get? rb.active_set_id = some handle then
        { s with bodies := s.bodies.modifyBody handle (fun _ => rb.wake_up strong) }
      else
        { s with
            bodies := s.bodies.modifyBody handle
              (fun _ => { rb.wake_up strong with
                active_set_id := s.active_dynamic_set.length })
            active_dynamic_set := s.active_dynamic_set ++ [handle] }
    else s

/-- The final-action tag of `RigidBodySet::maintain_one`. -/
inductive FinalAction
  | UpdateActiveKinematicSetId
  | UpdateActiveDynamicSetId
deriving DecidableEq

/-- `RigidBodySet::maintain_one`'s working state: the pieces the source
passes by mutable reference (`update_colliders_positions` only touches
collider world poses, which are outside the modelled collider view). -/
structure MaintainState where
  bodies : Arena
  modified_inactive_set : List RigidBodyHandle
  active_kinematic_set : List RigidBodyHandle
  active_dynamic_set : List RigidBodyHandle

/-- The body-status block of `RigidBodySet::maintain_one` (the
`if rb.changes.body_status` block of the source), returning the updated
body, kinematic set, dynamic set and final action. -/
def maintain_status_block (st : MaintainState) (handle : RigidBodyHandle)
    (rb0 : RigidBody) :
    RigidBody × List RigidBodyHandle × List RigidBodyHandle ×
      Option (FinalAction × ℕ) :=
  if rb0.changes.body_status then
    match rb0.body_status with
    | BodyStatus.Dynamic =>
      let kinfa :=
        if st.active_kinematic_set.get? rb0.active_set_id = some handle then
          (swap_remove st.active_kinematic_set rb0.active_set_id,
            some (FinalAction.UpdateActiveKinematicSetId, rb0.active_set_id))
        else (st.active_kinematic_set, none)
      let rb1 := rb0.wake_up true
      ({ rb1 with changes := { rb1.changes with sleep := true } },
        kinfa.1, st.active_dynamic_set, kinfa.2)
    | BodyStatus.Kinematic =>
      let dynfa :=
        if st.active_dynamic_set.get? rb0.active_set_id = some handle then
          (swap_remove st.active_dynamic_set rb0.active_set_id,
            some (FinalAction.UpdateActiveDynamicSetId, rb0.active_set_id))
        else (st.active_dynamic_set, none)
      if st.active_kinematic_set.get? rb0.active_set_id = some handle then
        (rb0, st.active_kinematic_set, dynfa.1, dynfa.2)
      else
        ({ rb0 with active_set_id := st.active_kinematic_set.length },
          st.active_kinematic_set ++ [handle], dynfa.1, dynfa.2)
    | BodyStatus.Static =>
      (rb0, st.active_kinematic_set, st.active_dynamic_set, none)
  else (rb0, st.active_kinematic_set, st.active_dynamic_set, none)

/-- The collider-position block of `RigidBodySet::maintain_one`
(collider world poses are outside the modelled collider view, so only
the kinematic-set re-registration and the modified-inactive bookkeeping
remain). -/
def maintain_position_block (st : MaintainState) (handle : RigidBodyHandle)
    (rbA : RigidBody) (kinA : List RigidBodyHandle) :
    RigidBody × List RigidBodyHandle × List RigidBodyHandle :=
  if rbA.changes.position || rbA.changes.colliders then
    let mi := if rbA.is_static then st.modified_inactive_set ++ [handle]
              else st.modified_inactive_set
    if rbA.is_kinematic ∧ kinA.get? rbA.active_set_id ≠ some handle then
      ({ rbA with active_set_id := kinA.length }, kinA ++ [handle], mi)
    else (rbA, kinA, mi)
  else (rbA, kinA, st.modified_inactive_set)

/-- The sleep block of `RigidBodySet::maintain_one`. -/
def maintain_sleep_block (handle : RigidBodyHandle) (rbB : RigidBody)
    (dynA : List RigidBodyHandle) : RigidBody × List RigidBodyHandle :=
  if rbB.changes.sleep ∧ ¬rbB.is_sleeping ∧ rbB.is_dynamic ∧
      dynA.get? rbB.active_set_id ≠ some handle then
    ({ rbB with active_set_id := dynA.length }, dynA ++ [handle])
  else (rbB, dynA)

/-- `RigidBodySet::maintain_one`: the three blocks in order, then the
final write-back of the body (changes cleared) and the final-action
patch of the displaced handle. -/
def maintain_one (st : MaintainState) (handle : RigidBodyHandle) : MaintainState :=
  match st.bodies.get handle with
  | none => st
  | some rb0 =>
    match maintain_status_block st handle rb0 with
    | (rbA, kinA, dynA, fa) =>
      match maintain_position_block st handle rbA kinA with
      | (rbB, kinB, miB) =>
        match maintain_sleep_block handle rbB dynA with
        | (rbC, dynC) =>
          let bodiesD := st.bodies.modifyBody handle
            (fun _ => { rbC with changes := RigidBodyChanges.empty })
          match fa with
          | none => ⟨bodiesD, miB, kinB, dynC⟩
          | some (action, id) =>
            let set := match action with
              | FinalAction.UpdateActiveKinematicSetId => kinB
              | FinalAction.UpdateActiveDynamicSetId => dynC
            match set.get? id with
            | some displaced =>
              ⟨bodiesD.modifyBody displaced
                (fun b => { b with active_set_id := id }), miB, kinB, dynC⟩
            | none => ⟨bodiesD, miB, kinB, dynC⟩

/-- `RigidBodySet::handle_user_changes`: feed every modified handle (or
every occupied handle when `modified_all_bodies`) through
`maintain_one`, then clear the modified list and flag. -/
def handle_user_changes (s : RigidBodySet) : RigidBodySet :=
  let modified :=
    if s.modified_all_bodies then s.modified_bodies ++ s.bodies.occupiedHandles
    else s.modified_bodies
  let st1 := modified.foldl maintain_one
    ⟨s.bodies, s.modified_inactive_set, s.active_kinematic_set,
      s.active_dynamic_set⟩
  { s with bodies := st1.bodies
           modified_inactive_set := st1.modified_inactive_set
           active_kinematic_set := st1.active_kinematic_set
           active_dynamic_set := st1.active_dynamic_set
           modified_bodies := []
           modified_all_bodies := false }

/-- `push_contacting_bodies`: for every collider of the body and every
contact interaction of that collider, push the other collider's parent
when some manifold has a nonempty solver-contact list (one push per
interaction, matching the `break` of the source). -/
def push_contacting_bodies (rb : RigidBody) (colliders : ColliderSet)
    (narrow_phase : NarrowPhase) : List RigidBodyHandle :=
  rb.colliders.flatMap fun collider_handle =>
    (narrow_phase.contacts_with collider_handle).filterMap fun inter =>
      if inter.2.2.manifolds.any (fun m => !m.data.solver_contacts.isEmpty) then
        some (colliders.parent (select_other (inter.1, inter.2.1) collider_handle))
      else none

/-- The per-handle body of the energy-drain loop of
`update_active_set_with_contacts` (the indexing `self.bodies[h.0]`
panics on a stale handle, modelled by `none`). -/
def drainStep (E : RigidBody → ℚ)
    (acc : Option (Arena × List RigidBodyHandle × List RigidBodyHandle))
    (h : RigidBodyHandle) :
    Option (Arena × List RigidBodyHandle × List RigidBodyHandle) :=
  match acc with
  | none => none
  | some (bodies, can_sleep, stack) =>
    match bodies.get h with
    | none => none
    | some rb =>
      let rb1 := rb.update_energy E
      if rb1.activation.energy ≤ rb1.activation.threshold then
        some (bodies.modifyBody h
            (fun _ => { rb1 with activation :=
              { rb1.activation with sleeping := true } }),
          can_sleep ++ [h], stack)
      else
        some (bodies.modifyBody h (fun _ => rb1), can_sleep, h :: stack)

/-- The per-handle body of the moving-kinematic loop of
`update_active_set_with_contacts`. -/
def kinematic_wake_step (bodies : Arena) (colliders : ColliderSet)
    (narrow_phase : NarrowPhase) (acc : Option (List RigidBodyHandle))
    (h : RigidBodyHandle) : Option (List RigidBodyHandle) :=
  match acc with
  | none => none
  | some stack =>
    match bodies.get h with
    | none => none
    | some rb =>
      if rb.is_moving then
        some ((push_contacting_bodies rb colliders narrow_phase).reverse ++ stack)
      else some stack

/-- The `while let Some(handle) = self.stack.pop()` traversal of
`update_active_set_with_contacts`, fuel-indexed (`none` also models a
panicking arena lookup).  `active_islands` is nonempty throughout (it
starts as `[0]`), so the `last().unwrap()` and the
`active_islands[active_island_id]` read are modelled with a default of
0. -/
def island_traversal (ts : ℕ) (min_island_size : ℕ) (colliders : ColliderSet)
    (narrow_phase : NarrowPhase) (joint_graph : JointGraph) :
    ℕ → Arena → List RigidBodyHandle → List ℕ → List RigidBodyHandle → ℕ →
    Option (Arena × List RigidBodyHandle × List ℕ)
  | _, bodies, active_dynamic_set, active_islands, [], _ =>
    some (bodies, active_dynamic_set, active_islands)
  | 0, _, _, _, _ :: _, _ => none
  | fuel + 1, bodies, active_dynamic_set, active_islands, handle :: stack1,
      island_marker =>
    match bodies.get handle with
    | none => none
    | some rb =>
      if rb.active_set_timestamp = ts ∨ ¬rb.is_dynamic then
        island_traversal ts min_island_size colliders narrow_phase joint_graph
          fuel bodies active_dynamic_set active_islands stack1 island_marker
      else
        match
          (if stack1.length < island_marker then
            (if min_island_size ≤
                active_dynamic_set.length - (active_islands.getLast?.getD 0) then
              active_islands ++ [active_dynamic_set.length]
            else active_islands, stack1.length)
          else (active_islands, island_marker) : List ℕ × ℕ)
        with
        | (islands1, marker1) =>
          let rb2 := { rb.wake_up false with
            active_island_id := islands1.length - 1
            active_set_id := active_dynamic_set.length
            active_set_offset :=
              active_dynamic_set.length - islands1.getLast?.getD 0
            active_set_timestamp := ts }
          island_traversal ts min_island_size colliders narrow_phase joint_graph
            fuel (bodies.modifyBody handle (fun _ => rb2))
            (active_dynamic_set ++ [handle]) islands1
            (((joint_graph.interactions_with rb2.joint_graph_index).map
                (fun inter => select_other inter handle)).reverse ++
              ((push_contacting_bodies rb2 colliders narrow_phase).reverse ++
                stack1))
            marker1

/-- The per-handle body of the final put-to-sleep loop of
`update_active_set_with_contacts`. -/
def sleepStep (acc : Option Arena) (h : RigidBodyHandle) : Option Arena :=
  match acc with
  | none => none
  | some bodies =>
    match bodies.get h with
    | none => none
    | some b =>
      if b.activation.sleeping then some (bodies.modifyBody h RigidBody.sleep)
      else some bodies

/-- `RigidBodySet::update_active_set_with_contacts`.  The energy update
is abstracted by `E` (see `RigidBody.update_energy`); `fuel` bounds the
graph-traversal loop (insufficient fuel yields `none`, treated like a
non-completing call); the `assert!(min_island_size > 0)` is modelled by
`none`. -/
def update_active_set_with_contacts (E : RigidBody → ℚ) (s : RigidBodySet)
    (colliders : ColliderSet) (narrow_phase : NarrowPhase)
    (joint_graph : JointGraph) (min_island_size : ℕ) (fuel : ℕ) :
    Option RigidBodySet :=
  if min_island_size = 0 then none
  else
    let ts := s.active_set_timestamp + 1
    match (s.active_dynamic_set.reverse).foldl (drainStep E)
        (some (s.bodies, [], [])) with
    | none => none
    | some (bodies1, can_sleep1, stack1) =>
      match s.active_kinematic_set.foldl
          (kinematic_wake_step bodies1 colliders narrow_phase) (some stack1) with
      | none => none
      | some stack2 =>
        match island_traversal ts min_island_size colliders narrow_phase
            joint_graph fuel bodies1 [] [0] stack2 (max stack2.length 1 - 1) with
        | none => none
        | some (bodies2, dyn2, islands2) =>
          match can_sleep1.foldl sleepStep (some bodies2) with
          | none => none
          | some bodies3 =>
            some { s with
              bodies := bodies3
              active_dynamic_set := dyn2
              active_islands := islands2 ++ [dyn2.length]
              active_set_timestamp := ts
              can_sleep := can_sleep1
              stack := [] }

end RigidBodySet

/-- The active-set invariant of one list: every position holds a handle
that resolves to a body whose `active_set_id` is that position and whose
status is the list's status (the spec's invariants 1 and 3, §8). -/
def activeSetOk (bodies : Arena) (set : List RigidBodyHandle)
    (status : BodyStatus) : Prop :=
  ∀ k : Fin set.length,
    (bodies.get (set.get k)).map (fun rb => (rb.active_set_id, rb.body_status))
      = some (k.1, status)

/-- The active-set consistency invariant of a rigid-body set: both
active lists are consistent and status-typed. -/
def WF (s : RigidBodySet) : Prop :=
  activeSetOk s.bodies s.active_dynamic_set BodyStatus.Dynamic ∧
  activeSetOk s.bodies s.active_kinematic_set BodyStatus.Kinematic

/-! ## Theorems -/

/-- C8: for all coefficients `c1, c2` and rule ids `r1, r2 ∈ {0,1,2,3}`,
`CoefficientCombineRule::combine(c1, c2, r1, r2)` equals the operator
named by `max(r1, r2)` applied to the two coefficients (0 averages,
1 takes the minimum, 2 multiplies, 3 takes the maximum). -/
theorem combine_eq_applyRule_of_max (c1 c2 : ℚ) (r1 r2 : ℕ)
    (h1 : r1 ≤ 3) (h2 : r2 ≤ 3) :
    ∃ rule, CoefficientCombineRule.from_value (Nat.max r1 r2) = some rule ∧
      CoefficientCombineRule.combine c1 c2 r1 r2 =
        CoefficientCombineRule.applyRule rule c1 c2 := by
  interval_cases r1 <;> interval_cases r2 <;> exact ⟨_, rfl, rfl⟩

/-- Witness for C8 at a concrete input. -/
theorem combine_eq_applyRule_of_max_witness :
    ∃ rule, CoefficientCombineRule.from_value (Nat.max 1 2) = some rule ∧
      CoefficientCombineRule.combine 3 5 1 2 =
        CoefficientCombineRule.applyRule rule 3 5 :=
  combine_eq_applyRule_of_max 3 5 1 2 (by decide) (by decide)

/-- C9: `CoefficientCombineRule::combine` is total (its match ends in a
catch-all arm, so it is a total function of the model), and whenever
`max(r1, r2) ≥ 3` — including rule ids outside the range `0..=3`, which
`from_value` rejects (modelled by `none`) — it applies the `Max` rule,
returning `max c1 c2`. -/
theorem combine_total_and_max_fallback :
    (∀ (c1 c2 : ℚ) (r1 r2 : ℕ), 3 ≤ Nat.max r1 r2 →
      CoefficientCombineRule.combine c1 c2 r1 r2 = max c1 c2) ∧
    (∀ v : ℕ, 3 < v → CoefficientCombineRule.from_value v = none) := by
  constructor
  · intro c1 c2 r1 r2 h
    have hk : Nat.max r1 r2 = (Nat.max r1 r2 - 3) + 3 := by omega
    unfold CoefficientCombineRule.combine
    rw [hk]
    rfl
  · intro v hv
    have hk : v = (v - 4) + 4 := by omega
    unfold CoefficientCombineRule.from_value
    rw [hk]
    rfl

/-- Witness for C9 at concrete inputs. -/
theorem combine_total_and_max_fallback_witness :
    CoefficientCombineRule.combine 2 7 1 5 = max 2 7 ∧
      CoefficientCombineRule.from_value 9 = none :=
  ⟨combine_total_and_max_fallback.1 2 7 1 5 (by decide),
    combine_total_and_max_fallback.2 9 (by decide)⟩

/-- C5: `update_as_oneway_platform` implements the three-state FSM on
`user_data`.  In UNKNOWN (0): if the local normal is close enough to the
allowed direction it moves to ALLOWED (1); otherwise it clears
`solver_contacts` and moves to FORBIDDEN (2) exactly when
`|local_n1|² > 0.1`.  In FORBIDDEN (2): it moves to ALLOWED when the
normal test passes and every solver contact has `dist > 0`, otherwise it
clears `solver_contacts`.  In ALLOWED (1): it moves to UNKNOWN exactly
when `solver_contacts` is empty. -/
theorem update_as_oneway_platform_fsm (ctx : ContactModificationContext)
    (n1 : Vec2) (cang : ℚ) :
    (ctx.user_data = 0 →
      ((cang ≤ ctx.local_n1.dot n1 →
          update_as_oneway_platform ctx n1 cang = some { ctx with user_data := 1 }) ∧
       (¬ cang ≤ ctx.local_n1.dot n1 → 1 / 10 < ctx.local_n1.norm_squared →
          update_as_oneway_platform ctx n1 cang =
            some { ctx with solver_contacts := [], user_data := 2 }) ∧
       (¬ cang ≤ ctx.local_n1.dot n1 → ¬ 1 / 10 < ctx.local_n1.norm_squared →
          update_as_oneway_platform ctx n1 cang =
            some { ctx with solver_contacts := [] }))) ∧
    (ctx.user_data = 2 →
      ((cang ≤ ctx.local_n1.dot n1 → (∀ c ∈ ctx.solver_contacts, 0 < c.dist) →
          update_as_oneway_platform ctx n1 cang = some { ctx with user_data := 1 }) ∧
       (¬ (cang ≤ ctx.local_n1.dot n1 ∧ ∀ c ∈ ctx.solver_contacts, 0 < c.dist) →
          update_as_oneway_platform ctx n1 cang =
            some { ctx with solver_contacts := [] }))) ∧
    (ctx.user_data = 1 →
      ((ctx.solver_contacts = [] →
          update_as_oneway_platform ctx n1 cang = some { ctx with user_data := 0 }) ∧
       (ctx.solver_contacts ≠ [] →
          update_as_oneway_platform ctx n1 cang = some ctx))) := by
  refine ⟨fun h0 => ?_, fun h2 => ?_, fun h1 => ?_⟩
  · simp only [update_as_oneway_platform, h0]
    refine ⟨fun hok => ?_, fun hnot hn => ?_, fun hnot hn => ?_⟩
    · rw [if_pos hok]
    · rw [if_neg hnot, if_pos hn]
    · rw [if_neg hnot, if_neg hn]
  · simp only [update_as_oneway_platform, h2]
    refine ⟨fun hok hall => ?_, fun hnot => ?_⟩
    · rw [if_pos ⟨hok, hall⟩]
    · rw [if_neg hnot]
  · simp only [update_as_oneway_platform, h1]
    refine ⟨fun hemp => ?_, fun hne => ?_⟩
    · rw [if_pos (by simp [hemp])]
    · rw [if_neg (by simp [List.isEmpty_iff, hne])]

/-- Witness for C5 at a concrete input: in UNKNOWN with the normal
aligned with the allowed direction the state moves to ALLOWED. -/
theorem update_as_oneway_platform_fsm_witness :
    update_as_oneway_platform ⟨⟨1, 0⟩, [], 0⟩ ⟨1, 0⟩ (1 / 2) =
      some ⟨⟨1, 0⟩, [], 1⟩ :=
  ((update_as_oneway_platform_fsm ⟨⟨1, 0⟩, [], 0⟩ ⟨1, 0⟩ (1 / 2)).1 rfl).1
    (by norm_num [Vec2.dot])

/-- Counterexample to C6: entered in FORBIDDEN (2) with an empty
solver-contact list and a passing normal test, the hook moves to
ALLOWED (1) — the all-contacts-separated condition holds vacuously — so
the state does not stay FORBIDDEN until contacts reappear. -/
theorem update_as_oneway_platform_forbidden_vacuous_cex :
    update_as_oneway_platform ⟨⟨1, 0⟩, [], 2⟩ ⟨1, 0⟩ 0 =
      some ⟨⟨1, 0⟩, [], 1⟩ := by
  norm_num [update_as_oneway_platform, Vec2.dot]

/-- C6 (amended): entered in FORBIDDEN with an empty solver-contact list,
the state stays FORBIDDEN exactly when the normal test fails
(`local_n1 · allowed < cos θ`); when the normal test passes, the
all-contacts-separated condition holds vacuously and the state moves to
ALLOWED. -/
theorem update_as_oneway_platform_forbidden_stays (ctx : ContactModificationContext)
    (n1 : Vec2) (cang : ℚ) (h2 : ctx.user_data = 2)
    (hemp : ctx.solver_contacts = [])
    (hnot : ¬ cang ≤ ctx.local_n1.dot n1) :
    update_as_oneway_platform ctx n1 cang = some ctx := by
  simp only [update_as_oneway_platform, h2]
  rw [if_neg (by simp [hnot])]
  rw [← hemp, ← h2]

/-- Witness for the amended C6 at a concrete input. -/
theorem update_as_oneway_platform_forbidden_stays_witness :
    update_as_oneway_platform ⟨⟨1, 0⟩, [], 2⟩ ⟨-1, 0⟩ 0 =
      some ⟨⟨1, 0⟩, [], 2⟩ :=
  update_as_oneway_platform_forbidden_stays ⟨⟨1, 0⟩, [], 2⟩ ⟨-1, 0⟩ 0 rfl rfl
    (by norm_num [Vec2.dot])

/-- C10: from any state with `user_data ∈ {0, 1, 2}` the hook returns
(the result again has `user_data ∈ {0, 1, 2}`, so starting from 0 every
call stays in that set), and it panics (the `unreachable!` arm, modelled
by `none`) if and only if it is entered with `user_data` outside
`{0, 1, 2}`. -/
theorem update_as_oneway_platform_user_data_inv (ctx : ContactModificationContext)
    (n1 : Vec2) (cang : ℚ) :
    (ctx.user_data ≤ 2 →
      ∃ out, update_as_oneway_platform ctx n1 cang = some out ∧ out.user_data ≤ 2) ∧
    (2 < ctx.user_data → update_as_oneway_platform ctx n1 cang = none) := by
  constructor
  · intro hle
    obtain ⟨l, sc, u⟩ := ctx
    simp only at hle
    interval_cases u <;>
      · simp only [update_as_oneway_platform]
        split_ifs <;> refine ⟨_, rfl, ?_⟩ <;> simp
  · intro hgt
    obtain ⟨l, sc, u⟩ := ctx
    simp only at hgt
    have hk : u = (u - 3) + 3 := by omega
    simp only [update_as_oneway_platform]
    rw [hk]
    rfl

/-- Witness for C10 at concrete inputs. -/
theorem update_as_oneway_platform_user_data_inv_witness :
    (∃ out, update_as_oneway_platform ⟨⟨0, 0⟩, [], 2⟩ ⟨1, 0⟩ 0 = some out ∧
      out.user_data ≤ 2) ∧
    update_as_oneway_platform ⟨⟨0, 0⟩, [], 5⟩ ⟨1, 0⟩ 0 = none :=
  ⟨(update_as_oneway_platform_user_data_inv ⟨⟨0, 0⟩, [], 2⟩ ⟨1, 0⟩ 0).1 (by decide),
    (update_as_oneway_platform_user_data_inv ⟨⟨0, 0⟩, [], 5⟩ ⟨1, 0⟩ 0).2 (by decide)⟩

/-! ### Velocity-constraint right-hand sides (C3) -/

theorem Vec2.one_smul_eq (v : Vec2) : (1 : ℚ) • v = v := by
  show Vec2.smul 1 v = v
  cases v
  simp [Vec2.smul]

theorem Vec2.neg_one_smul_eq (v : Vec2) : (-1 : ℚ) • v = -v := by
  show Vec2.smul (-1) v = Vec2.neg v
  cases v
  simp [Vec2.smul, Vec2.neg]

theorem ground_solver_element_normal_spec (params : IntegrationParameters)
    (wm : ℚ) (rb1 rb2 : RigidBody) (fd t1 : Vec2) (fm : ℚ) (p : SolverContact) :
    (VelocityGroundConstraint.solver_element params (wm * params.warmstart_coeff)
        rb1 rb2 fd t1 fm p).normal_part.rhs
      = normal_rhs_spec params p
          (Vec2.dot (rb1.linvel + Vec2.gcrossS rb1.angvel (p.point - rb1.world_com)
            - (rb2.linvel + Vec2.gcrossS rb2.angvel (p.point - rb2.world_com))) fd)
    ∧ (VelocityGroundConstraint.solver_element params (wm * params.warmstart_coeff)
        rb1 rb2 fd t1 fm p).normal_part.impulse
      = warmstart_impulse_spec params wm p
          (normal_rhs_spec params p
            (Vec2.dot (rb1.linvel + Vec2.gcrossS rb1.angvel (p.point - rb1.world_com)
              - (rb2.linvel + Vec2.gcrossS rb2.angvel (p.point - rb2.world_com))) fd)) := by
  have hrhs : (VelocityGroundConstraint.solver_element params
        (wm * params.warmstart_coeff) rb1 rb2 fd t1 fm p).normal_part.rhs
      = normal_rhs_spec params p
          (Vec2.dot (rb1.linvel + Vec2.gcrossS rb1.angvel (p.point - rb1.world_com)
            - (rb2.linvel + Vec2.gcrossS rb2.angvel (p.point - rb2.world_com))) fd) := by
    simp only [VelocityGroundConstraint.solver_element, normal_rhs_spec,
      IntegrationParameters.inv_dt, IntegrationParameters.velocity_based_erp_inv_dt]
    ring
  refine ⟨hrhs, ?_⟩
  have hstep : (VelocityGroundConstraint.solver_element params
        (wm * params.warmstart_coeff) rb1 rb2 fd t1 fm p).normal_part.impulse
      = p.warmstart_impulse *
          min (params.warmstart_correction_slope /
              |(VelocityGroundConstraint.solver_element params
                  (wm * params.warmstart_coeff) rb1 rb2 fd t1 fm p).normal_part.rhs
                - p.prev_rhs|)
            (wm * params.warmstart_coeff) := rfl
  rw [hstep, hrhs]
  simp only [warmstart_impulse_spec]
  rw [mul_comm wm params.warmstart_coeff]

theorem twobody_solver_element_normal_spec (params : IntegrationParameters)
    (wm : ℚ) (rb1 rb2 : RigidBody) (fd t1 : Vec2) (p : SolverContact) :
    (VelocityConstraint.solver_element params (wm * params.warmstart_coeff)
        rb1 rb2 fd t1 p).normal_part.rhs
      = normal_rhs_spec params p
          (Vec2.dot (rb1.linvel + Vec2.gcrossS rb1.angvel (p.point - rb1.world_com)
            - (rb2.linvel + Vec2.gcrossS rb2.angvel (p.point - rb2.world_com))) fd)
    ∧ (VelocityConstraint.solver_element params (wm * params.warmstart_coeff)
        rb1 rb2 fd t1 p).normal_part.impulse
      = warmstart_impulse_spec params wm p
          (normal_rhs_spec params p
            (Vec2.dot (rb1.linvel + Vec2.gcrossS rb1.angvel (p.point - rb1.world_com)
              - (rb2.linvel + Vec2.gcrossS rb2.angvel (p.point - rb2.world_com))) fd)) := by
  have hrhs : (VelocityConstraint.solver_element params
        (wm * params.warmstart_coeff) rb1 rb2 fd t1 p).normal_part.rhs
      = normal_rhs_spec params p
          (Vec2.dot (rb1.linvel + Vec2.gcrossS rb1.angvel (p.point - rb1.world_com)
            - (rb2.linvel + Vec2.gcrossS rb2.angvel (p.point - rb2.world_com))) fd) := by
    simp only [VelocityConstraint.solver_element, normal_rhs_spec,
      IntegrationParameters.inv_dt, IntegrationParameters.velocity_based_erp_inv_dt]
    ring
  refine ⟨hrhs, ?_⟩
  have hstep : (VelocityConstraint.solver_element params
        (wm * params.warmstart_coeff) rb1 rb2 fd t1 p).normal_part.impulse
      = p.warmstart_impulse *
          min (params.warmstart_correction_slope /
              |(VelocityConstraint.solver_element params
                  (wm * params.warmstart_coeff) rb1 rb2 fd t1 p).normal_part.rhs
                - p.prev_rhs|)
            (wm * params.warmstart_coeff) := rfl
  rw [hstep, hrhs]
  simp only [warmstart_impulse_spec]
  rw [mul_comm wm params.warmstart_coeff]

/-- C3: for each solver-contact point, `VelocityConstraint::generate` and
`VelocityGroundConstraint::generate` set the normal right-hand side to
`(1 + is_bouncy·restitution)·(v1−v2)·n + max(dist,0)/dt`, weighted by
`is_bouncy + is_resting·velocity_solve_fraction`, plus
`is_resting·velocity_based_erp·min(dist,0)/dt`; and they set the
warmstarted normal impulse to the stored previous impulse times
`min(warmstart_correction_slope / |rhs − prev_rhs|,
warmstart_coeff·manifold.warmstart_multiplier)`. -/
theorem velocity_constraint_normal_rhs_spec (ob : Vec2 → Vec2)
    (params : IntegrationParameters) (mid : ℕ) (manifold : ContactManifold)
    (bodies : RigidBodyHandle → RigidBody) :
    (∀ i k : ℕ,
      (((VelocityGroundConstraint.generate ob params mid manifold bodies)[i]?).bind
          fun c => (c.elements[k]?).map fun e =>
            (e.normal_part.rhs, e.normal_part.impulse))
        = (((chunks2 manifold.data.solver_contacts)[i]?.bind fun ch => ch[k]?).map
            (ground_normal_parts_spec params manifold bodies))) ∧
    (manifold.data.relative_dominance = 0 →
      ∃ cs, VelocityConstraint.generate ob params mid manifold bodies = some cs ∧
        ∀ i k : ℕ,
          ((cs[i]?).bind fun c => (c.elements[k]?).map fun e =>
              (e.normal_part.rhs, e.normal_part.impulse))
            = (((chunks2 manifold.data.solver_contacts)[i]?.bind fun ch => ch[k]?).map
                (twobody_normal_parts_spec params manifold bodies))) := by
  constructor
  · intro i k
    simp only [VelocityGroundConstraint.generate]
    rw [List.getElem?_map]
    cases hch : (chunks2 manifold.data.solver_contacts)[i]? with
    | none => rfl
    | some ch =>
      simp only [Option.map_some', Option.some_bind]
      rw [List.getElem?_map]
      cases hp : ch[k]? with
      | none => rfl
      | some p =>
        simp only [Option.map_some']
        have h := ground_solver_element_normal_spec params
          manifold.data.warmstart_multiplier
          (if manifold.data.relative_dominance < 0 then
            bodies manifold.data.body_pair.2 else bodies manifold.data.body_pair.1)
          (if manifold.data.relative_dominance < 0 then
            bodies manifold.data.body_pair.1 else bodies manifold.data.body_pair.2)
          (if manifold.data.relative_dominance < 0 then
            manifold.data.normal else -manifold.data.normal)
          (ob (if manifold.data.relative_dominance < 0 then
            manifold.data.normal else -manifold.data.normal))
          (if manifold.data.relative_dominance < 0 then (-1 : ℚ) else 1) p
        simp only [ground_normal_parts_spec]
        exact congrArg some (Prod.ext h.1 h.2)
  · intro h0
    simp only [VelocityConstraint.generate, if_pos h0]
    refine ⟨_, rfl, ?_⟩
    intro i k
    rw [List.getElem?_map]
    cases hch : (chunks2 manifold.data.solver_contacts)[i]? with
    | none => rfl
    | some ch =>
      simp only [Option.map_some', Option.some_bind]
      rw [List.getElem?_map]
      cases hp : ch[k]? with
      | none => rfl
      | some p =>
        simp only [Option.map_some']
        have h := twobody_solver_element_normal_spec params
          manifold.data.warmstart_multiplier
          (bodies manifold.data.body_pair.1) (bodies manifold.data.body_pair.2)
          (-manifold.data.normal) (ob (-manifold.data.normal)) p
        simp only [twobody_normal_parts_spec]
        exact congrArg some (Prod.ext h.1 h.2)

/-- Witness for C3 at a concrete input (a one-contact manifold with zero
relative dominance). -/
theorem velocity_constraint_normal_rhs_spec_witness :
    ∃ cs, VelocityConstraint.generate (fun v => v) ⟨1, 1, 1, 1, 1⟩ 0
        ⟨⟨((0, 0), (1, 0)), 1, 0, 0, ⟨0, 1⟩, [default]⟩⟩ (fun _ => default)
        = some cs ∧
      ∀ i k : ℕ,
        ((cs[i]?).bind fun c => (c.elements[k]?).map fun e =>
            (e.normal_part.rhs, e.normal_part.impulse))
          = (((chunks2 ((⟨⟨((0, 0), (1, 0)), 1, 0, 0, ⟨0, 1⟩, [default]⟩⟩ :
                ContactManifold)).data.solver_contacts)[i]?.bind fun ch => ch[k]?).map
              (twobody_normal_parts_spec ⟨1, 1, 1, 1, 1⟩
                ⟨⟨((0, 0), (1, 0)), 1, 0, 0, ⟨0, 1⟩, [default]⟩⟩ (fun _ => default))) :=
  (velocity_constraint_normal_rhs_spec (fun v => v) ⟨1, 1, 1, 1, 1⟩ 0
    ⟨⟨((0, 0), (1, 0)), 1, 0, 0, ⟨0, 1⟩, [default]⟩⟩ (fun _ => default)).2 rfl

/-! ### SIMD-wide ground constraints refine the scalar ones (C4) -/

theorem list_mapM_eq_map {α β : Type} (f : α → Option β) (g : α → β)
    (l : List α) (h : ∀ a ∈ l, f a = some (g a)) : l.mapM f = some (l.map g) := by
  induction l with
  | nil => rfl
  | cons a l ih =>
    rw [List.mapM_cons, h a (List.mem_cons_self a l),
      ih (fun b hb => h b (List.mem_cons_of_mem a hb))]
    rfl

theorem lanePoints_eq_of_le (rem : Fin SIMD_WIDTH → List SolverContact) (np : ℕ)
    (h : ∀ ii, np ≤ (rem ii).length) :
    WVelocityGroundConstraint.lanePoints rem np
      = some ((List.range np).map fun k => fun ii => (rem ii).getD k default) := by
  unfold WVelocityGroundConstraint.lanePoints
  apply list_mapM_eq_map
  intro k hk
  have hk2 : k < np := List.mem_range.mp hk
  have hlt : ∀ ii, k < (rem ii).length := fun ii => lt_of_lt_of_le hk2 (h ii)
  rw [dif_pos hlt]
  congr 1
  funext ii
  exact (List.getD_eq_getElem (rem ii) default (hlt ii)).symm

theorem lanePoints_lane_proj (rem : Fin SIMD_WIDTH → List SolverContact) (np : ℕ)
    (h : ∀ ii2, np ≤ (rem ii2).length) (ii : Fin SIMD_WIDTH) :
    ((List.range np).map fun k => fun ii2 => (rem ii2).getD k default).map
        (fun p => p ii)
      = (rem ii).take np := by
  rw [List.map_map]
  apply List.ext_getElem
  · simp only [List.length_map, List.length_range, List.length_take]
    exact (min_eq_left (h ii)).symm
  · intro n h1 h2
    simp only [List.getElem_map, List.getElem_range, Function.comp_apply,
      List.getElem_take]
    have hn : n < (rem ii).length := by
      simp only [List.length_map, List.length_range] at h1
      exact lt_of_lt_of_le h1 (h ii)
    exact List.getD_eq_getElem (rem ii) default hn

theorem limit_foldl_lane_proj (points : List (Fin SIMD_WIDTH → SolverContact))
    (c : Fin SIMD_WIDTH → ℚ) (ii : Fin SIMD_WIDTH) :
    (points.foldl (fun _ p ii2 => (p ii2).friction) c) ii
      = (points.map (fun p => p ii)).foldl (fun _ q => q.friction) (c ii) := by
  induction points generalizing c with
  | nil => rfl
  | cons p l ih =>
    simp only [List.foldl_cons, List.map_cons]
    exact ih _

theorem chunks2_cons_of_ne_nil {α : Type} (l : List α) (h : l ≠ []) :
    chunks2 l = l.take 2 :: chunks2 (l.drop 2) := by
  match l with
  | [] => exact absurd rfl h
  | [a] => rfl
  | a :: b :: rest => rfl

theorem wide_solver_element_extract (params : IntegrationParameters)
    (wcq : Fin SIMD_WIDTH → ℚ) (rbs1 rbs2 : Fin SIMD_WIDTH → RigidBody)
    (fd tg : Fin SIMD_WIDTH → Vec2) (fs : Fin SIMD_WIDTH → ℚ)
    (p : Fin SIMD_WIDTH → SolverContact) (ii : Fin SIMD_WIDTH) :
    WVelocityGroundConstraintElement.extract ii
        (WVelocityGroundConstraint.solver_element params wcq rbs1 rbs2 fd tg fs p)
      = VelocityGroundConstraint.solver_element params (wcq ii) (rbs1 ii) (rbs2 ii)
          (fd ii) (tg ii) (fs ii) (p ii) := by
  have hrhs : (WVelocityGroundConstraint.solver_element params wcq rbs1 rbs2 fd tg
        fs p).normal_part.rhs ii
      = (VelocityGroundConstraint.solver_element params (wcq ii) (rbs1 ii) (rbs2 ii)
          (fd ii) (tg ii) (fs ii) (p ii)).normal_part.rhs := by
    simp only [WVelocityGroundConstraint.solver_element,
      VelocityGroundConstraint.solver_element]
    ring
  have himp : (WVelocityGroundConstraint.solver_element params wcq rbs1 rbs2 fd tg
        fs p).normal_part.impulse ii
      = (VelocityGroundConstraint.solver_element params (wcq ii) (rbs1 ii) (rbs2 ii)
          (fd ii) (tg ii) (fs ii) (p ii)).normal_part.impulse := by
    have hW : (WVelocityGroundConstraint.solver_element params wcq rbs1 rbs2 fd tg
          fs p).normal_part.impulse ii
        = (p ii).warmstart_impulse *
            min (params.warmstart_correction_slope /
                |(WVelocityGroundConstraint.solver_element params wcq rbs1 rbs2 fd tg
                    fs p).normal_part.rhs ii - (p ii).prev_rhs|)
              (wcq ii) := rfl
    have hS : (VelocityGroundConstraint.solver_element params (wcq ii) (rbs1 ii)
          (rbs2 ii) (fd ii) (tg ii) (fs ii) (p ii)).normal_part.impulse
        = (p ii).warmstart_impulse *
            min (params.warmstart_correction_slope /
                |(VelocityGroundConstraint.solver_element params (wcq ii) (rbs1 ii)
                    (rbs2 ii) (fd ii) (tg ii) (fs ii) (p ii)).normal_part.rhs
                  - (p ii).prev_rhs|)
              (wcq ii) := rfl
    rw [hW, hS, hrhs]
  have htimp : (WVelocityGroundConstraint.solver_element params wcq rbs1 rbs2 fd tg
        fs p).tangent_part.impulse ii
      = (VelocityGroundConstraint.solver_element params (wcq ii) (rbs1 ii) (rbs2 ii)
          (fd ii) (tg ii) (fs ii) (p ii)).tangent_part.impulse := by
    have hW : (WVelocityGroundConstraint.solver_element params wcq rbs1 rbs2 fd tg
          fs p).tangent_part.impulse ii
        = (p ii).warmstart_tangent_impulse *
            min (params.warmstart_correction_slope /
                |(WVelocityGroundConstraint.solver_element params wcq rbs1 rbs2 fd tg
                    fs p).normal_part.rhs ii - (p ii).prev_rhs|)
              (wcq ii) := rfl
    have hS : (VelocityGroundConstraint.solver_element params (wcq ii) (rbs1 ii)
          (rbs2 ii) (fd ii) (tg ii) (fs ii) (p ii)).tangent_part.impulse
        = (p ii).warmstart_tangent_impulse *
            min (params.warmstart_correction_slope /
                |(VelocityGroundConstraint.solver_element params (wcq ii) (rbs1 ii)
                    (rbs2 ii) (fd ii) (tg ii) (fs ii) (p ii)).normal_part.rhs
                  - (p ii).prev_rhs|)
              (wcq ii) := rfl
    rw [hW, hS, hrhs]
  ext <;> first
    | rfl
    | exact hrhs
    | exact himp
    | exact htimp

theorem take_min_length {α : Type} (l : List α) (k : ℕ) :
    l.take (min l.length k) = l.take k := by
  rcases le_total l.length k with h | h
  · rw [min_eq_left h, List.take_length, List.take_of_length_le h]
  · rw [min_eq_right h]

theorem generateLoop_extract_lane (params : IntegrationParameters)
    (wcq : Fin SIMD_WIDTH → ℚ) (rbs1 rbs2 : Fin SIMD_WIDTH → RigidBody)
    (fd tg : Fin SIMD_WIDTH → Vec2) (fs : Fin SIMD_WIDTH → ℚ)
    (im2w : Fin SIMD_WIDTH → ℚ) (mjw midw : Fin SIMD_WIDTH → ℕ) :
    ∀ (n : ℕ) (rem : Fin SIMD_WIDTH → List SolverContact),
      (∀ ii, (rem ii).length = n) →
      ∃ out,
        WVelocityGroundConstraint.generateLoop params wcq rbs1 rbs2 fd tg fs im2w
            mjw midw rem = some out ∧
        ∀ ii, out.map (WVelocityGroundConstraint.extract ii)
          = (chunks2 (rem ii)).map fun ch =>
              { mj_lambda2 := mjw ii
                dir1 := fd ii
                im2 := im2w ii
                limit := ch.foldl (fun _ p => p.friction) 0
                elements := ch.map (VelocityGroundConstraint.solver_element params
                  (wcq ii) (rbs1 ii) (rbs2 ii) (fd ii) (tg ii) (fs ii))
                manifold_id := midw ii
                manifold_contact_id := ch.map (fun p => p.contact_id)
                num_contacts := ch.length } := by
  intro n
  induction n using Nat.strong_induction_on with
  | _ n IH =>
    intro rem hlen
    by_cases h0 : rem 0 = []
    · have hn : n = 0 := by rw [← hlen 0, h0]; rfl
      refine ⟨[], ?_, ?_⟩
      · rw [WVelocityGroundConstraint.generateLoop, dif_pos h0]
      · intro ii
        have hnil : rem ii = [] := List.length_eq_zero.mp (by rw [hlen ii, hn])
        rw [hnil]
        rfl
    · have hpos : 0 < n := by
        have hp := List.length_pos.mpr h0
        rw [hlen 0] at hp
        exact hp
      have hbound : ∀ ii, min (rem 0).length MAX_MANIFOLD_POINTS ≤ (rem ii).length := by
        intro ii
        rw [hlen ii, hlen 0]
        exact min_le_left _ _
      have hdrop : ∀ ii,
          ((rem ii).drop MAX_MANIFOLD_POINTS).length = n - MAX_MANIFOLD_POINTS := by
        intro ii
        simp [List.length_drop, hlen ii]
      have hlt : n - MAX_MANIFOLD_POINTS < n := by
        simp only [MAX_MANIFOLD_POINTS]
        omega
      obtain ⟨out2, hout2, hext2⟩ := IH (n - MAX_MANIFOLD_POINTS) hlt
        (fun ii => (rem ii).drop MAX_MANIFOLD_POINTS) hdrop
      rw [WVelocityGroundConstraint.generateLoop, dif_neg h0,
        lanePoints_eq_of_le rem _ hbound, hout2]
      refine ⟨_, rfl, ?_⟩
      intro ii
      have hnil2 : rem ii ≠ [] :=
        List.length_pos.mp (by rw [hlen ii]; exact hpos)
      rw [chunks2_cons_of_ne_nil (rem ii) hnil2]
      simp only [List.map_cons]
      congr 1
      · -- the head constraint: lane ii of the wide constraint is the
        -- scalar constraint built from the first chunk of lane ii
        have hproj := lanePoints_lane_proj rem
          (min (rem 0).length MAX_MANIFOLD_POINTS) hbound ii
        have htake : (rem ii).take (min (rem 0).length MAX_MANIFOLD_POINTS)
            = (rem ii).take MAX_MANIFOLD_POINTS := by
          rw [hlen 0, ← hlen ii]
          exact take_min_length (rem ii) MAX_MANIFOLD_POINTS
        simp only [WVelocityGroundConstraint.extract, MAX_MANIFOLD_POINTS] at *
        congr 1
        · -- limit
          rw [limit_foldl_lane_proj, hproj, htake]
        · -- elements
          rw [List.map_map]
          have hcong : ((List.range (min (rem 0).length 2)).map
                fun k => fun ii2 => (rem ii2).getD k default).map
                ((WVelocityGroundConstraintElement.extract ii) ∘
                  (WVelocityGroundConstraint.solver_element params wcq rbs1 rbs2
                    fd tg fs))
              = ((List.range (min (rem 0).length 2)).map
                fun k => fun ii2 => (rem ii2).getD k default).map
                ((VelocityGroundConstraint.solver_element params (wcq ii) (rbs1 ii)
                    (rbs2 ii) (fd ii) (tg ii) (fs ii)) ∘ (fun p => p ii)) := by
            apply List.map_congr_left
            intro p _
            exact wide_solver_element_extract params wcq rbs1 rbs2 fd tg fs p ii
          rw [hcong, ← List.map_map, hproj, htake]
        · -- manifold_contact_id
          rw [List.map_map]
          have hcong : ((List.range (min (rem 0).length 2)).map
                fun k => fun ii2 => (rem ii2).getD k default).map
                ((fun f => f ii) ∘ (fun p ii2 => (p ii2).contact_id))
              = ((List.range (min (rem 0).length 2)).map
                fun k => fun ii2 => (rem ii2).getD k default).map
                ((fun p => p.contact_id) ∘ (fun p => p ii)) := by
            apply List.map_congr_left
            intro p _
            rfl
          rw [hcong, ← List.map_map, hproj, htake]
        · -- num_contacts
          rw [← htake, List.length_take, hlen 0, ← hlen ii, Nat.min_comm,
            inf_assoc, inf_idem]
      · exact hext2 ii

/-- C4: for every SIMD bundle of ground contact manifolds in which every
lane has nonzero relative dominance and all lanes have the same
solver-contact count, `WVelocityGroundConstraint::generate` succeeds and
lane `ii` of every emitted wide constraint equals the constraint the
scalar `VelocityGroundConstraint::generate` emits for manifold `ii`
alone — same `mj_lambda2`, friction limit, per-point normal and tangent
`rhs`, `r`, `gcross2`, and warmstarted impulses — so one bundle
represents `SIMD_WIDTH` independent interactions. -/
theorem wide_ground_generate_refines_scalar (ob : Vec2 → Vec2)
    (params : IntegrationParameters) (manifold_id : Fin SIMD_WIDTH → ℕ)
    (manifolds : Fin SIMD_WIDTH → ContactManifold)
    (bodies : RigidBodyHandle → RigidBody)
    (hdom : ∀ ii, (manifolds ii).data.relative_dominance ≠ 0)
    (hlen : ∀ ii, (manifolds ii).data.solver_contacts.length
      = (manifolds 0).data.solver_contacts.length) :
    ∃ out,
      WVelocityGroundConstraint.generate ob params manifold_id manifolds bodies
        = some out ∧
      ∀ ii, out.map (WVelocityGroundConstraint.extract ii)
        = VelocityGroundConstraint.generate ob params (manifold_id ii)
            (manifolds ii) bodies := by
  obtain ⟨out, hout, hext⟩ := generateLoop_extract_lane params
    (fun ii => (manifolds ii).data.warmstart_multiplier * params.warmstart_coeff)
    (fun ii => if (manifolds ii).data.relative_dominance < 0 then
      bodies (manifolds ii).data.body_pair.2 else bodies (manifolds ii).data.body_pair.1)
    (fun ii => if (manifolds ii).data.relative_dominance < 0 then
      bodies (manifolds ii).data.body_pair.1 else bodies (manifolds ii).data.body_pair.2)
    (fun ii => (-(if (manifolds ii).data.relative_dominance < 0 then (-1 : ℚ) else 1)) •
      (manifolds ii).data.normal)
    (fun ii => ob ((-(if (manifolds ii).data.relative_dominance < 0 then (-1 : ℚ) else 1)) •
      (manifolds ii).data.normal))
    (fun ii => if (manifolds ii).data.relative_dominance < 0 then (-1 : ℚ) else 1)
    (fun ii => (if (manifolds ii).data.relative_dominance < 0 then
      bodies (manifolds ii).data.body_pair.1 else
        bodies (manifolds ii).data.body_pair.2).effective_inv_mass)
    (fun ii => (if (manifolds ii).data.relative_dominance < 0 then
      bodies (manifolds ii).data.body_pair.1 else
        bodies (manifolds ii).data.body_pair.2).active_set_offset)
    manifold_id
    (manifolds 0).data.solver_contacts.length
    (fun ii => (manifolds ii).data.solver_contacts) hlen
  refine ⟨out, hout, ?_⟩
  intro ii
  rw [hext ii]
  have hfd : (-(if (manifolds ii).data.relative_dominance < 0 then (-1 : ℚ) else 1)) •
      (manifolds ii).data.normal
      = (if (manifolds ii).data.relative_dominance < 0 then (manifolds ii).data.normal
         else -(manifolds ii).data.normal) := by
    by_cases h : (manifolds ii).data.relative_dominance < 0
    · rw [if_pos h, if_pos h, neg_neg]
      exact Vec2.one_smul_eq _
    · rw [if_neg h, if_neg h]
      exact Vec2.neg_one_smul_eq _
  simp only [VelocityGroundConstraint.generate]
  rw [hfd]

/-- Witness for C4 at a concrete input: a bundle of four identical
one-contact manifolds with positive relative dominance. -/
theorem wide_ground_generate_refines_scalar_witness :
    ∃ out,
      WVelocityGroundConstraint.generate (fun v => v) ⟨1, 1, 1, 1, 1⟩ (fun _ => 0)
          (fun _ => ⟨⟨((0, 0), (1, 0)), 1, 0, 1, ⟨0, 1⟩, [default]⟩⟩)
          (fun _ => default)
        = some out ∧
      ∀ ii, out.map (WVelocityGroundConstraint.extract ii)
        = VelocityGroundConstraint.generate (fun v => v) ⟨1, 1, 1, 1, 1⟩ 0
            ⟨⟨((0, 0), (1, 0)), 1, 0, 1, ⟨0, 1⟩, [default]⟩⟩ (fun _ => default) :=
  wide_ground_generate_refines_scalar (fun v => v) ⟨1, 1, 1, 1, 1⟩ (fun _ => 0)
    (fun _ => ⟨⟨((0, 0), (1, 0)), 1, 0, 1, ⟨0, 1⟩, [default]⟩⟩) (fun _ => default)
    (fun _ => one_ne_zero) (fun _ => rfl)

/-! ### Arena and active-set lemmas (towards C1, C2, C7) -/

theorem listModify_get? {α : Type} (l : List α) (i : ℕ) (f : α → α) :
    ∀ j, (listModify l i f).get? j = if j = i then (l.get? j).map f else l.get? j := by
  induction l generalizing i with
  | nil =>
    intro j
    simp [listModify]
  | cons a rest ih =>
    intro j
    cases i with
    | zero =>
      cases j with
      | zero => simp [listModify]
      | succ j => simp [listModify]
    | succ i =>
      cases j with
      | zero => simp [listModify]
      | succ j =>
        simp only [listModify, List.get?_cons_succ, ih i j]
        by_cases hj : j = i
        · simp [hj]
        · simp [hj, fun h => hj (Nat.succ_injective h)]

namespace Arena

theorem get_modifyBody_self (a : Arena) (h : RigidBodyHandle)
    (f : RigidBody → RigidBody) : (a.modifyBody h f).get h = (a.get h).map f := by
  simp only [Arena.get, Arena.modifyBody, listModify_get?, if_pos rfl]
  cases he : a.items.get? h.1 with
  | none => rfl
  | some e =>
    simp only [Option.map_some']
    by_cases hg : e.generation = h.2
    · simp [hg]
    · simp [hg]

theorem get_modifyBody_ne (a : Arena) (h : RigidBodyHandle)
    (f : RigidBody → RigidBody) (h2 : RigidBodyHandle) (hne : h2 ≠ h) :
    (a.modifyBody h f).get h2 = a.get h2 := by
  simp only [Arena.get, Arena.modifyBody, listModify_get?]
  by_cases hi : h2.1 = h.1
  · rw [if_pos hi]
    have hg2 : h2.2 ≠ h.2 := by
      intro hg
      exact hne (Prod.ext hi hg)
    cases he : a.items.get? h2.1 with
    | none => rfl
    | some e =>
      simp only [Option.map_some']
      by_cases hg : e.generation = h.2
      · have hcond : h.2 ≠ h2.2 := fun hc => hg2 hc.symm
        simp [hg, hcond]
      · simp [hg]
  · rw [if_neg hi]

theorem get_modifyBody_stale (a : Arena) (h : RigidBodyHandle)
    (f : RigidBody → RigidBody) (hnone : a.get h = none) (h2 : RigidBodyHandle) :
    (a.modifyBody h f).get h2 = a.get h2 := by
  by_cases hne : h2 = h
  · subst hne
    rw [get_modifyBody_self, hnone]
    rfl
  · exact get_modifyBody_ne a h f h2 hne

theorem findFreeIdx_spec :
    ∀ (l : List ArenaEntry) (i : ℕ), findFreeIdx l = some i →
      ∃ e, l.get? i = some e ∧ e.value = none := by
  intro l
  induction l with
  | nil => intro i h; simp [findFreeIdx] at h
  | cons e rest ih =>
    intro i h
    by_cases hv : e.value.isNone
    · simp only [findFreeIdx, if_pos hv, Option.some.injEq] at h
      subst h
      exact ⟨e, rfl, Option.isNone_iff_eq_none.mp hv⟩
    · simp only [findFreeIdx, if_neg hv, Option.map_eq_some'] at h
      obtain ⟨j, hj, hij⟩ := h
      obtain ⟨e2, he2, hv2⟩ := ih j hj
      subst hij
      exact ⟨e2, he2, hv2⟩

theorem insert_get_fresh (a : Arena) (rb : RigidBody) :
    a.get (a.insert rb).2 = none := by
  unfold Arena.insert
  cases hfree : findFreeIdx a.items with
  | some i =>
    obtain ⟨e, he, hv⟩ := findFreeIdx_spec a.items i hfree
    simp only [Arena.get, he, hv]
    split <;> rfl
  | none =>
    simp only [Arena.get]
    rw [List.get?_eq_none.mpr (le_refl a.items.length)]

theorem insert_get_new (a : Arena) (rb : RigidBody) :
    (a.insert rb).1.get (a.insert rb).2 = some rb := by
  unfold Arena.insert
  cases hfree : findFreeIdx a.items with
  | some i =>
    obtain ⟨e, he, hv⟩ := findFreeIdx_spec a.items i hfree
    simp only [Arena.get, List.get?_set_eq]
    rw [he]
    simp
  | none =>
    simp only [Arena.get, List.get?_concat_length]
    simp

theorem insert_get_preserved (a : Arena) (rb : RigidBody) (h2 : RigidBodyHandle)
    (rb2 : RigidBody) (hres : a.get h2 = some rb2) :
    (a.insert rb).1.get h2 = some rb2 := by
  have hidx : ∃ e2, a.items.get? h2.1 = some e2 ∧ e2.generation = h2.2 ∧
      e2.value = some rb2 := by
    unfold Arena.get at hres
    split at hres
    · exact absurd hres (by simp)
    · rename_i e2 he
      split at hres
      · rename_i hg
        exact ⟨e2, he, hg, hres⟩
      · exact absurd hres (by simp)
  obtain ⟨e2, he2, hg2, hv2⟩ := hidx
  unfold Arena.insert
  cases hfree : findFreeIdx a.items with
  | some i =>
    have hne : h2.1 ≠ i := by
      intro hi
      obtain ⟨e, he, hv⟩ := findFreeIdx_spec a.items i hfree
      rw [← hi, he2] at he
      cases he
      rw [hv] at hv2
      exact absurd hv2 (by simp)
    simp only [Arena.get, List.get?_set_ne _ _ (fun hc => hne hc.symm), he2,
      if_pos hg2, hv2]
  | none =>
    have hlt : h2.1 < a.items.length := (List.get?_eq_some.mp he2).1
    simp only [Arena.get, List.get?_append hlt, he2, if_pos hg2, hv2]

theorem remove_snd (a : Arena) (h : RigidBodyHandle) :
    (a.remove h).2 = a.get h := by
  unfold Arena.remove
  cases a.get h <;> rfl

theorem remove_resolved (a : Arena) (h : RigidBodyHandle) (rb : RigidBody)
    (hres : a.get h = some rb) :
    ∃ e, a.items.get? h.1 = some e ∧ e.generation = h.2 ∧ e.value = some rb := by
  unfold Arena.get at hres
  split at hres
  · exact absurd hres (by simp)
  · rename_i e he
    split at hres
    · rename_i hg
      exact ⟨e, he, hg, hres⟩
    · exact absurd hres (by simp)

theorem remove_get_self (a : Arena) (h : RigidBodyHandle) :
    (a.remove h).1.get h = none := by
  unfold Arena.remove
  cases hres : a.get h with
  | none => exact hres
  | some rb =>
    simp only [Arena.get, listModify_get?, if_pos rfl]
    obtain ⟨e, he, hg, hv⟩ := remove_resolved a h rb hres
    rw [he]
    simp

theorem remove_get_ne (a : Arena) (h h2 : RigidBodyHandle) (hne : h2 ≠ h) :
    (a.remove h).1.get h2 = a.get h2 := by
  unfold Arena.remove
  cases hres : a.get h with
  | none => rfl
  | some rb =>
    obtain ⟨e, he, hg, hv⟩ := remove_resolved a h rb hres
    simp only [Arena.get, listModify_get?]
    by_cases hi : h2.1 = h.1
    · rw [if_pos hi]
      have hg2 : h2.2 ≠ h.2 := fun hgg => hne (Prod.ext hi hgg)
      rw [hi, he]
      simp only [Option.map_some']
      have hgne : e.generation ≠ h2.2 := by
        rw [hg]
        exact fun hc => hg2 hc.symm
      simp [hgne]
    · rw [if_neg hi]

end Arena

theorem activeSetOk_iff_get? (bodies : Arena) (set : List RigidBodyHandle)
    (status : BodyStatus) :
    activeSetOk bodies set status ↔
      ∀ (k : ℕ) (h : RigidBodyHandle), set.get? k = some h →
        (bodies.get h).map (fun rb => (rb.active_set_id, rb.body_status))
          = some (k, status) := by
  constructor
  · intro hok k h hk
    obtain ⟨hlt, hget⟩ := List.get?_eq_some.mp hk
    have := hok ⟨k, hlt⟩
    rw [hget] at this
    exact this
  · intro hfor k
    exact hfor k.1 (set.get k) (List.get?_eq_get k.2)

theorem activeSetOk_mem_spec (bodies : Arena) (set : List RigidBodyHandle)
    (status : BodyStatus) (k : ℕ) (h : RigidBodyHandle)
    (hok : activeSetOk bodies set status) (hk : set.get? k = some h) :
    ∃ rb, bodies.get h = some rb ∧ rb.active_set_id = k ∧
      rb.body_status = status := by
  have hit := (activeSetOk_iff_get? bodies set status).mp hok k h hk
  cases hres : bodies.get h with
  | none => rw [hres] at hit; exact absurd hit (by simp)
  | some rb =>
    rw [hres] at hit
    simp only [Option.map_some', Option.some.injEq, Prod.mk.injEq] at hit
    exact ⟨rb, rfl, hit.1, hit.2⟩

theorem activeSetOk_not_mem (bodies : Arena) (set : List RigidBodyHandle)
    (status : BodyStatus) (h : RigidBodyHandle) (rb : RigidBody)
    (hok : activeSetOk bodies set status) (hres : bodies.get h = some rb)
    (hguard : set.get? rb.active_set_id ≠ some h) :
    ∀ k, set.get? k ≠ some h := by
  intro k hk
  obtain ⟨rb2, hres2, hid2, _⟩ := activeSetOk_mem_spec bodies set status k h hok hk
  rw [hres] at hres2
  rw [Option.some.injEq] at hres2
  apply hguard
  rw [hres2, hid2]
  exact hk

theorem activeSetOk_write (bodies : Arena) (set : List RigidBodyHandle)
    (status : BodyStatus) (h : RigidBodyHandle) (rb rb1 : RigidBody)
    (hres : bodies.get h = some rb)
    (hid : rb1.active_set_id = rb.active_set_id)
    (hst : rb1.body_status = rb.body_status)
    (hok : activeSetOk bodies set status) :
    activeSetOk (bodies.modifyBody h (fun _ => rb1)) set status := by
  rw [activeSetOk_iff_get?] at hok ⊢
  intro k h2 hk
  by_cases hne : h2 = h
  · subst hne
    have hit := hok k h2 hk
    rw [hres] at hit
    simp only [Option.map_some', Option.some.injEq, Prod.mk.injEq] at hit
    rw [Arena.get_modifyBody_self, hres]
    simp only [Option.map_some', Option.some.injEq, Prod.mk.injEq]
    exact ⟨hid.trans hit.1, hst.trans hit.2⟩
  · rw [Arena.get_modifyBody_ne bodies h _ h2 hne]
    exact hok k h2 hk

theorem activeSetOk_modify_not_mem (bodies : Arena) (set : List RigidBodyHandle)
    (status : BodyStatus) (h : RigidBodyHandle) (f : RigidBody → RigidBody)
    (hnot : ∀ k, set.get? k ≠ some h)
    (hok : activeSetOk bodies set status) :
    activeSetOk (bodies.modifyBody h f) set status := by
  rw [activeSetOk_iff_get?] at hok ⊢
  intro k h2 hk
  have hne : h2 ≠ h := fun he => hnot k (he ▸ hk)
  rw [Arena.get_modifyBody_ne bodies h f h2 hne]
  exact hok k h2 hk

theorem activeSetOk_modify_status_ne (bodies : Arena) (set : List RigidBodyHandle)
    (status : BodyStatus) (h : RigidBodyHandle) (f : RigidBody → RigidBody)
    (rb : RigidBody) (hres : bodies.get h = some rb)
    (hst : rb.body_status ≠ status) (hok : activeSetOk bodies set status) :
    activeSetOk (bodies.modifyBody h f) set status := by
  apply activeSetOk_modify_not_mem bodies set status h f ?_ hok
  intro k hk
  obtain ⟨rb2, hres2, _, hst2⟩ := activeSetOk_mem_spec bodies set status k h hok hk
  rw [hres] at hres2
  rw [Option.some.injEq] at hres2
  exact hst (by rw [hres2]; exact hst2)

theorem activeSetOk_modify_stale (bodies : Arena) (set : List RigidBodyHandle)
    (status : BodyStatus) (h : RigidBodyHandle) (f : RigidBody → RigidBody)
    (hnone : bodies.get h = none) (hok : activeSetOk bodies set status) :
    activeSetOk (bodies.modifyBody h f) set status := by
  rw [activeSetOk_iff_get?] at hok ⊢
  intro k h2 hk
  rw [Arena.get_modifyBody_stale bodies h f hnone h2]
  exact hok k h2 hk

theorem activeSetOk_append (bodies : Arena) (set : List RigidBodyHandle)
    (status : BodyStatus) (h : RigidBodyHandle) (rb : RigidBody)
    (hok : activeSetOk bodies set status)
    (hres : bodies.get h = some rb)
    (hid : rb.active_set_id = set.length) (hst : rb.body_status = status) :
    activeSetOk bodies (set ++ [h]) status := by
  rw [activeSetOk_iff_get?] at hok ⊢
  intro k h2 hk
  rcases lt_trichotomy k set.length with hlt | heq | hgt
  · rw [List.get?_append hlt] at hk
    exact hok k h2 hk
  · subst heq
    rw [List.get?_concat_length, Option.some.injEq] at hk
    subst hk
    rw [hres]
    simp [hid, hst]
  · have hnone : (set ++ [h]).get? k = none := by
      apply List.get?_eq_none.mpr
      simp only [List.length_append, List.length_singleton]
      omega
    rw [hnone] at hk
    exact absurd hk (by simp)

theorem activeSetOk_mem_guard (bodies : Arena) (set : List RigidBodyHandle)
    (status : BodyStatus) (h : RigidBodyHandle) (rb : RigidBody)
    (hok : activeSetOk bodies set status) (hres : bodies.get h = some rb) :
    h ∈ set ↔ set.get? rb.active_set_id = some h := by
  constructor
  · intro hmem
    obtain ⟨n, hn⟩ := List.get?_of_mem hmem
    obtain ⟨rb2, hres2, hid2, _⟩ :=
      activeSetOk_mem_spec bodies set status n h hok hn
    rw [hres, Option.some.injEq] at hres2
    rw [hres2, hid2]
    exact hn
  · intro hg
    exact List.get?_mem hg

/-! ### `wake_up` (C7, and its part of C2) -/

theorem wake_up_preserves_WF (s : RigidBodySet) (h : RigidBodyHandle)
    (strong : Bool) (hwf : WF s) : WF (s.wake_up h strong) := by
  obtain ⟨hdyn, hkin⟩ := hwf
  unfold RigidBodySet.wake_up
  split
  · exact ⟨hdyn, hkin⟩
  · rename_i rb hres
    split
    · rename_i hd
      have hstne : rb.body_status ≠ BodyStatus.Kinematic := by
        rw [hd]
        intro hc
        exact BodyStatus.noConfusion hc
      split
      · constructor
        · exact activeSetOk_write s.bodies _ _ h rb _ hres rfl rfl hdyn
        · exact activeSetOk_modify_status_ne s.bodies _ _ h _ rb hres hstne hkin
      · rename_i hin
        constructor
        · have hnot := activeSetOk_not_mem s.bodies _ _ h rb hdyn hres hin
          have hok2 := activeSetOk_modify_not_mem s.bodies _ _ h
            (fun _ => { rb.wake_up strong with
              active_set_id := s.active_dynamic_set.length }) hnot hdyn
          apply activeSetOk_append _ _ _ h _ hok2
          · rw [Arena.get_modifyBody_self, hres]
            rfl
          · rfl
          · exact hd
        · exact activeSetOk_modify_status_ne s.bodies _ _ h _ rb hres hstne hkin
    · exact ⟨hdyn, hkin⟩

/-- C7: `RigidBodySet::wake_up(h, strong)` acts only when `h` resolves
to a dynamic body: it clears `sleeping` (and when `strong` resets the
energy accumulator), and appends `h` to `active_dynamic_set` — setting
its `active_set_id` to the new last index — if and only if `h` is not
already in `active_dynamic_set`; for a kinematic body, a static body, or
a stale handle the whole set is left unchanged. -/
theorem wake_up_spec (s : RigidBodySet) (h : RigidBodyHandle) (strong : Bool)
    (hwf : WF s) :
    (s.bodies.get h = none → s.wake_up h strong = s) ∧
    (∀ rb, s.bodies.get h = some rb → rb.body_status ≠ BodyStatus.Dynamic →
      s.wake_up h strong = s) ∧
    (∀ rb, s.bodies.get h = some rb → rb.body_status = BodyStatus.Dynamic →
      (s.wake_up h strong).active_kinematic_set = s.active_kinematic_set ∧
      ((s.wake_up h strong).bodies.get h).map (fun b => b.activation.sleeping)
        = some false ∧
      (strong = true →
        ((s.wake_up h strong).bodies.get h).map (fun b => b.activation.energy)
          = some (|rb.activation.threshold| * 2)) ∧
      (h ∈ s.active_dynamic_set →
        (s.wake_up h strong).active_dynamic_set = s.active_dynamic_set) ∧
      (h ∉ s.active_dynamic_set →
        (s.wake_up h strong).active_dynamic_set = s.active_dynamic_set ++ [h] ∧
        ((s.wake_up h strong).bodies.get h).map (fun b => b.active_set_id)
          = some s.active_dynamic_set.length)) := by
  refine ⟨?_, ?_, ?_⟩
  · intro hnone
    unfold RigidBodySet.wake_up
    rw [hnone]
  · intro rb hres hnd
    unfold RigidBodySet.wake_up
    rw [hres]
    simp only [RigidBody.is_dynamic]
    rw [if_neg hnd]
  · intro rb hres hd
    have hmem := activeSetOk_mem_guard s.bodies s.active_dynamic_set
      BodyStatus.Dynamic h rb hwf.1 hres
    unfold RigidBodySet.wake_up
    rw [hres]
    simp only [RigidBody.is_dynamic]
    rw [if_pos hd]
    by_cases hin : s.active_dynamic_set.get? rb.active_set_id = some h
    · rw [if_pos hin]
      refine ⟨rfl, ?_, ?_, fun _ => rfl, fun hno => absurd (hmem.mpr hin) hno⟩
      · rw [Arena.get_modifyBody_self, hres]
        rfl
      · intro hstrong
        rw [Arena.get_modifyBody_self, hres]
        simp [RigidBody.wake_up, hstrong]
    · rw [if_neg hin]
      refine ⟨rfl, ?_, ?_, fun hyes => absurd hyes (fun hc => hin (hmem.mp hc)),
        fun _ => ⟨rfl, ?_⟩⟩
      · rw [Arena.get_modifyBody_self, hres]
        rfl
      · intro hstrong
        rw [Arena.get_modifyBody_self, hres]
        simp [RigidBody.wake_up, hstrong]
      · rw [Arena.get_modifyBody_self, hres]
        rfl

/-- Witness for C7 at a concrete input: a one-body set whose only body
is dynamic and already active. -/
theorem wake_up_spec_witness :
    (RigidBodySet.wake_up
        ⟨⟨[⟨0, some default⟩], 1⟩, [(0, 0)], [], [], [], 0, [], false, [], []⟩
        (0, 0) true).active_kinematic_set = [] ∧
    (((RigidBodySet.wake_up
        ⟨⟨[⟨0, some default⟩], 1⟩, [(0, 0)], [], [], [], 0, [], false, [], []⟩
        (0, 0) true).bodies.get (0, 0)).map (fun b => b.activation.sleeping))
      = some false :=
  ⟨((wake_up_spec
      ⟨⟨[⟨0, some default⟩], 1⟩, [(0, 0)], [], [], [], 0, [], false, [], []⟩
      (0, 0) true
      (by constructor <;> (intro k; fin_cases k <;> rfl))).2.2
    default rfl rfl).1,
   ((wake_up_spec
      ⟨⟨[⟨0, some default⟩], 1⟩, [(0, 0)], [], [], [], 0, [], false, [], []⟩
      (0, 0) true
      (by constructor <;> (intro k; fin_cases k <;> rfl))).2.2
    default rfl rfl).2.1⟩

/-! ### Swap-remove and active-set transfer lemmas -/

theorem swap_remove_length {α : Type} (l : List α) (i : ℕ) :
    (swap_remove l i).length = l.length - 1 := by
  unfold swap_remove
  cases hl : l.getLast? with
  | none =>
    have : l = [] := by
      cases l with
      | nil => rfl
      | cons a as =>
        have hs : (a :: as).getLast?.isSome := List.getLast?_isSome.mpr (by simp)
        rw [hl] at hs
        exact absurd hs (by simp)
    subst this
    rfl
  | some a =>
    simp [List.length_dropLast, List.length_set]

theorem swap_remove_get_of_lt {α : Type} (l : List α) (i k : ℕ)
    (hi : i < l.length) (hk : k < l.length - 1) :
    (swap_remove l i).get? k =
      if k = i then l.get? (l.length - 1) else l.get? k := by
  have hne : l ≠ [] := by
    intro hc
    subst hc
    exact absurd hi (by simp)
  obtain ⟨a, hl⟩ := Option.isSome_iff_exists.mp (List.getLast?_isSome.mpr hne)
  unfold swap_remove
  rw [hl]
  show ((l.set i a).dropLast).get? k = _
  have hlast : l.get? (l.length - 1) = some a := by
    rw [← List.getLast?_eq_get?]
    exact hl
  have hkset : k < (l.set i a).length - 1 := by
    rw [List.length_set]
    exact hk
  rw [List.dropLast_eq_take, List.length_set, List.get?_take hk]
  by_cases hki : k = i
  · subst hki
    rw [if_pos rfl, List.get?_set_eq, hlast]
    have : l.get? k = (l.get ⟨k, by omega⟩) := (List.get?_eq_get (by omega))
    rw [this]
    rfl
  · rw [if_neg hki, List.get?_set_ne _ _ (fun hc => hki hc.symm)]

theorem activeSetOk_congr (bodies bodies2 : Arena) (set : List RigidBodyHandle)
    (status : BodyStatus) (hok : activeSetOk bodies set status)
    (heq : ∀ k h, set.get? k = some h → bodies2.get h = bodies.get h) :
    activeSetOk bodies2 set status := by
  rw [activeSetOk_iff_get?] at hok ⊢
  intro k h hk
  rw [heq k h hk]
  exact hok k h hk

theorem activeSetOk_pos_eq (bodies : Arena) (set : List RigidBodyHandle)
    (status : BodyStatus) (h : RigidBodyHandle) (rb : RigidBody) (k : ℕ)
    (hok : activeSetOk bodies set status) (hres : bodies.get h = some rb)
    (hk : set.get? k = some h) : k = rb.active_set_id := by
  obtain ⟨rb2, hres2, hid2, _⟩ := activeSetOk_mem_spec bodies set status k h hok hk
  rw [hres, Option.some.injEq] at hres2
  rw [← hid2, hres2]

theorem removeFromActiveSet_spec (bodies0 bodies1 : Arena)
    (setA : List RigidBodyHandle) (st : BodyStatus) (handle : RigidBodyHandle)
    (rb : RigidBody) (hok0 : activeSetOk bodies0 setA st)
    (hres0 : bodies0.get handle = some rb)
    (hpres : ∀ h2, h2 ≠ handle → bodies1.get h2 = bodies0.get h2) :
    activeSetOk
      (RigidBodySet.removeFromActiveSet bodies1 setA rb.active_set_id handle).1
      (RigidBodySet.removeFromActiveSet bodies1 setA rb.active_set_id handle).2
      st ∧
    (∀ h2, h2 ≠ handle → (∀ k, setA.get? k ≠ some h2) →
      (RigidBodySet.removeFromActiveSet bodies1 setA
        rb.active_set_id handle).1.get h2 = bodies0.get h2) := by
  unfold RigidBodySet.removeFromActiveSet
  by_cases hguard : setA.get? rb.active_set_id = some handle
  · rw [if_pos hguard]
    have hi : rb.active_set_id < setA.length := (List.get?_eq_some.mp hguard).1
    cases hrep : (swap_remove setA rb.active_set_id).get? rb.active_set_id with
    | some replacement =>
      simp only [hrep]
      have hi2 : rb.active_set_id < setA.length - 1 := by
        have := (List.get?_eq_some.mp hrep).1
        rw [swap_remove_length] at this
        exact this
      have hrepA : setA.get? (setA.length - 1) = some replacement := by
        have := swap_remove_get_of_lt setA rb.active_set_id rb.active_set_id hi hi2
        rw [if_pos rfl] at this
        rw [← this]
        exact hrep
      have hrepne : replacement ≠ handle := by
        intro hc
        subst hc
        have := activeSetOk_pos_eq bodies0 setA st replacement rb
          (setA.length - 1) hok0 hres0 hrepA
        omega
      obtain ⟨rbr, hrr, hrid, hrst⟩ := activeSetOk_mem_spec bodies0 setA st
        (setA.length - 1) replacement hok0 hrepA
      constructor
      · rw [activeSetOk_iff_get?]
        intro k h2 hk2
        have hklt : k < setA.length - 1 := by
          have := (List.get?_eq_some.mp hk2).1
          rw [swap_remove_length] at this
          exact this
        rw [swap_remove_get_of_lt setA rb.active_set_id k hi hklt] at hk2
        by_cases hki : k = rb.active_set_id
        · rw [if_pos hki, hrepA, Option.some.injEq] at hk2
          subst hk2
          rw [Arena.get_modifyBody_self, hpres replacement hrepne, hrr]
          simp [hrst, hki]
        · rw [if_neg hki] at hk2
          have hne : h2 ≠ handle := by
            intro hc
            subst hc
            exact hki (activeSetOk_pos_eq bodies0 setA st h2 rb k hok0 hres0 hk2)
          have hner : h2 ≠ replacement := by
            intro hc
            subst hc
            have := activeSetOk_pos_eq bodies0 setA st h2 rbr k hok0 hrr hk2
            omega
          rw [Arena.get_modifyBody_ne _ _ _ _ hner, hpres h2 hne]
          exact (activeSetOk_iff_get? bodies0 setA st).mp hok0 k h2 hk2
      · intro h2 hne hnot
        have hner : h2 ≠ replacement := by
          intro hc
          subst hc
          exact hnot (setA.length - 1) hrepA
        rw [Arena.get_modifyBody_ne _ _ _ _ hner, hpres h2 hne]
    | none =>
      simp only [hrep]
      constructor
      · rw [activeSetOk_iff_get?]
        intro k h2 hk2
        have hklt : k < setA.length - 1 := by
          have := (List.get?_eq_some.mp hk2).1
          rw [swap_remove_length] at this
          exact this
        have hki : k ≠ rb.active_set_id := by
          intro hc
          subst hc
          rw [hrep] at hk2
          exact absurd hk2 (by simp)
        rw [swap_remove_get_of_lt setA rb.active_set_id k hi hklt,
          if_neg hki] at hk2
        have hne : h2 ≠ handle := by
          intro hc
          subst hc
          exact hki (activeSetOk_pos_eq bodies0 setA st h2 rb k hok0 hres0 hk2)
        rw [hpres h2 hne]
        exact (activeSetOk_iff_get? bodies0 setA st).mp hok0 k h2 hk2
      · intro h2 hne _
        exact hpres h2 hne
  · rw [if_neg hguard]
    constructor
    · rw [activeSetOk_iff_get?]
      intro k h2 hk2
      have hne : h2 ≠ handle := by
        intro hc
        subst hc
        have := activeSetOk_pos_eq bodies0 setA st h2 rb k hok0 hres0 hk2
        subst this
        exact hguard hk2
      rw [hpres h2 hne]
      exact (activeSetOk_iff_get? bodies0 setA st).mp hok0 k h2 hk2
    · intro h2 hne _
      exact hpres h2 hne

theorem activeSetOk_arena_insert (bodies0 : Arena)
    (set2 : List RigidBodyHandle) (st : BodyStatus) (rb1 : RigidBody)
    (hok : activeSetOk bodies0 set2 st) :
    activeSetOk (bodies0.insert rb1).1 set2 st := by
  refine activeSetOk_congr bodies0 _ set2 st hok ?_
  intro k h hk
  obtain ⟨rb2, hres2, _, _⟩ := activeSetOk_mem_spec bodies0 set2 st k h hok hk
  rw [hres2, Arena.insert_get_preserved bodies0 rb1 h rb2 hres2]

theorem activeSetOk_arena_insert_not_mem (bodies0 : Arena)
    (set2 : List RigidBodyHandle) (st : BodyStatus) (rb1 : RigidBody)
    (hok : activeSetOk bodies0 set2 st) :
    ∀ k, set2.get? k ≠ some (bodies0.insert rb1).2 := by
  intro k hk
  obtain ⟨rb2, hres2, _, _⟩ := activeSetOk_mem_spec bodies0 set2 st k _ hok hk
  rw [Arena.insert_get_fresh bodies0 rb1] at hres2
  exact absurd hres2 (by simp)

theorem activeSetOk_insert_kin_append (bodies0 : Arena)
    (set2 : List RigidBodyHandle) (rb1 : RigidBody)
    (hok : activeSetOk bodies0 set2 BodyStatus.Kinematic)
    (hst : rb1.body_status = BodyStatus.Kinematic) :
    activeSetOk ((bodies0.insert rb1).1.modifyBody (bodies0.insert rb1).2
        (fun b => { b with active_set_id := set2.length }))
      (set2 ++ [(bodies0.insert rb1).2]) BodyStatus.Kinematic := by
  refine activeSetOk_append _ _ _ _
    { rb1 with active_set_id := set2.length }
    (activeSetOk_modify_not_mem _ _ _ _ _
      (activeSetOk_arena_insert_not_mem bodies0 set2 BodyStatus.Kinematic rb1 hok)
      (activeSetOk_arena_insert bodies0 set2 BodyStatus.Kinematic rb1 hok))
    ?_ rfl hst
  rw [Arena.get_modifyBody_self, Arena.insert_get_new]
  rfl

theorem insert_preserves_WF (s : RigidBodySet) (rb0 : RigidBody) (hwf : WF s) :
    WF (s.insert rb0).1 := by
  obtain ⟨hdyn, hkin⟩ := hwf
  unfold RigidBodySet.insert
  dsimp only
  split
  · rename_i hk
    exact ⟨activeSetOk_modify_not_mem _ _ _ _ _
        (activeSetOk_arena_insert_not_mem _ _ _ _ hdyn)
        (activeSetOk_arena_insert _ _ _ _ hdyn),
      activeSetOk_insert_kin_append _ _ _ hkin hk⟩
  · exact ⟨activeSetOk_arena_insert _ _ _ _ hdyn,
      activeSetOk_arena_insert _ _ _ _ hkin⟩

theorem remove_preserves_WF (s : RigidBodySet) (handle : RigidBodyHandle)
    (hwf : WF s) : WF (s.remove handle).1 := by
  obtain ⟨hdyn, hkin⟩ := hwf
  unfold RigidBodySet.remove
  split
  · exact ⟨hdyn, hkin⟩
  · rename_i bodies1 rb hins
    have hres0 : s.bodies.get handle = some rb := by
      have := Arena.remove_snd s.bodies handle
      rw [hins] at this
      exact this.symm
    have hpres1 : ∀ h2, h2 ≠ handle → bodies1.get h2 = s.bodies.get h2 := by
      intro h2 hne
      have := Arena.remove_get_ne s.bodies handle h2 hne
      rw [hins] at this
      exact this
    have hmemne : ∀ (set2 : List RigidBodyHandle) (st : BodyStatus),
        activeSetOk s.bodies set2 st → rb.body_status ≠ st →
        ∀ k h2, set2.get? k = some h2 → h2 ≠ handle := by
      intro set2 st hok hstne k h2 hk hc
      subst hc
      obtain ⟨rb2, hres2, _, hst2⟩ := activeSetOk_mem_spec s.bodies set2 st
        k h2 hok hk
      rw [hres0, Option.some.injEq] at hres2
      exact hstne (by rw [hres2]; exact hst2)
    have hguard_ne : ∀ (set2 : List RigidBodyHandle) (st : BodyStatus),
        activeSetOk s.bodies set2 st → rb.body_status ≠ st →
        set2.get? rb.active_set_id ≠ some handle :=
      fun set2 st hok hstne hc => hmemne set2 st hok hstne _ handle hc rfl
    have hdisj : ∀ (setX setY : List RigidBodyHandle) (stX stY : BodyStatus),
        activeSetOk s.bodies setX stX → activeSetOk s.bodies setY stY →
        stX ≠ stY → ∀ k h2, setX.get? k = some h2 →
        ∀ k2, setY.get? k2 ≠ some h2 := by
      intro setX setY stX stY hokX hokY hne k h2 hk k2 hk2
      obtain ⟨rb2, hres2, _, hst2⟩ := activeSetOk_mem_spec s.bodies setX stX
        k h2 hokX hk
      obtain ⟨rb3, hres3, _, hst3⟩ := activeSetOk_mem_spec s.bodies setY stY
        k2 h2 hokY hk2
      rw [hres2, Option.some.injEq] at hres3
      exact hne (by rw [← hst2, hres3, hst3])
    cases hst : rb.body_status with
    | Dynamic =>
      have hkg := hguard_ne s.active_kinematic_set BodyStatus.Kinematic hkin
        (by rw [hst]; exact fun hc => BodyStatus.noConfusion hc)
      have heqk : RigidBodySet.removeFromActiveSet bodies1 s.active_kinematic_set
          rb.active_set_id handle = (bodies1, s.active_kinematic_set) := by
        unfold RigidBodySet.removeFromActiveSet
        rw [if_neg hkg]
      rw [heqk]
      obtain ⟨hokD, hpresD⟩ := removeFromActiveSet_spec s.bodies bodies1
        s.active_dynamic_set BodyStatus.Dynamic handle rb hdyn hres0 hpres1
      refine ⟨hokD, ?_⟩
      refine activeSetOk_congr s.bodies _ _ _ hkin ?_
      intro k h2 hk
      have hne := hmemne s.active_kinematic_set BodyStatus.Kinematic hkin
        (by rw [hst]; exact fun hc => BodyStatus.noConfusion hc) k h2 hk
      exact hpresD h2 hne
        (hdisj s.active_kinematic_set s.active_dynamic_set BodyStatus.Kinematic
          BodyStatus.Dynamic hkin hdyn
          (fun hc => BodyStatus.noConfusion hc) k h2 hk)
    | Kinematic =>
      obtain ⟨hokK, hpresK⟩ := removeFromActiveSet_spec s.bodies bodies1
        s.active_kinematic_set BodyStatus.Kinematic handle rb hkin hres0 hpres1
      have hdg := hguard_ne s.active_dynamic_set BodyStatus.Dynamic hdyn
        (by rw [hst]; exact fun hc => BodyStatus.noConfusion hc)
      have heqd : ∀ bodiesX : Arena,
          RigidBodySet.removeFromActiveSet bodiesX s.active_dynamic_set
            rb.active_set_id handle = (bodiesX, s.active_dynamic_set) := by
        intro bodiesX
        unfold RigidBodySet.removeFromActiveSet
        rw [if_neg hdg]
      rcases hK2 : RigidBodySet.removeFromActiveSet bodies1 s.active_kinematic_set
          rb.active_set_id handle with ⟨bodies2, kin1⟩
      rw [hK2] at hokK hpresK
      dsimp only
      rw [heqd bodies2]
      refine ⟨?_, hokK⟩
      refine activeSetOk_congr s.bodies _ _ _ hdyn ?_
      intro k h2 hk
      have hne := hmemne s.active_dynamic_set BodyStatus.Dynamic hdyn
        (by rw [hst]; exact fun hc => BodyStatus.noConfusion hc) k h2 hk
      exact hpresK h2 hne
        (hdisj s.active_dynamic_set s.active_kinematic_set BodyStatus.Dynamic
          BodyStatus.Kinematic hdyn hkin
          (fun hc => BodyStatus.noConfusion hc) k h2 hk)
    | Static =>
      have hkg := hguard_ne s.active_kinematic_set BodyStatus.Kinematic hkin
        (by rw [hst]; exact fun hc => BodyStatus.noConfusion hc)
      have hdg := hguard_ne s.active_dynamic_set BodyStatus.Dynamic hdyn
        (by rw [hst]; exact fun hc => BodyStatus.noConfusion hc)
      have heqk : RigidBodySet.removeFromActiveSet bodies1 s.active_kinematic_set
          rb.active_set_id handle = (bodies1, s.active_kinematic_set) := by
        unfold RigidBodySet.removeFromActiveSet
        rw [if_neg hkg]
      have heqd : RigidBodySet.removeFromActiveSet bodies1 s.active_dynamic_set
          rb.active_set_id handle = (bodies1, s.active_dynamic_set) := by
        unfold RigidBodySet.removeFromActiveSet
        rw [if_neg hdg]
      rw [heqk]
      dsimp only
      rw [heqd]
      constructor
      · refine activeSetOk_congr s.bodies _ _ _ hdyn ?_
        intro k h2 hk
        exact hpres1 h2 (hmemne s.active_dynamic_set BodyStatus.Dynamic hdyn
          (by rw [hst]; exact fun hc => BodyStatus.noConfusion hc) k h2 hk)
      · refine activeSetOk_congr s.bodies _ _ _ hkin ?_
        intro k h2 hk
        exact hpres1 h2 (hmemne s.active_kinematic_set BodyStatus.Kinematic hkin
          (by rw [hst]; exact fun hc => BodyStatus.noConfusion hc) k h2 hk)

theorem activeSetOk_write_append (bodies : Arena) (set2 : List RigidBodyHandle)
    (st : BodyStatus) (handle : RigidBodyHandle) (rb rbC : RigidBody)
    (hres : bodies.get handle = some rb)
    (hok : activeSetOk bodies set2 st)
    (hnot : ∀ k, set2.get? k ≠ some handle)
    (hid : rbC.active_set_id = set2.length)
    (hst : rbC.body_status = st) :
    activeSetOk (bodies.modifyBody handle (fun _ => rbC))
      (set2 ++ [handle]) st := by
  refine activeSetOk_append _ _ _ _ rbC
    (activeSetOk_modify_not_mem _ _ _ _ _ hnot hok) ?_ hid hst
  rw [Arena.get_modifyBody_self, hres]
  rfl

theorem maintain_status_block_spec (st0 : RigidBodySet.MaintainState)
    (handle : RigidBodyHandle) (rb0 : RigidBody)
    (hdyn : activeSetOk st0.bodies st0.active_dynamic_set BodyStatus.Dynamic)
    (hkin : activeSetOk st0.bodies st0.active_kinematic_set
      BodyStatus.Kinematic)
    (hres : st0.bodies.get handle = some rb0) :
    (RigidBodySet.maintain_status_block st0 handle rb0).2.2.2 = none ∧
    (RigidBodySet.maintain_status_block st0 handle rb0).2.2.1
      = st0.active_dynamic_set ∧
    (RigidBodySet.maintain_status_block st0 handle rb0).1.body_status
      = rb0.body_status ∧
    (((RigidBodySet.maintain_status_block st0 handle rb0).2.1
        = st0.active_kinematic_set ∧
      (RigidBodySet.maintain_status_block st0 handle rb0).1.active_set_id
        = rb0.active_set_id) ∨
     ((RigidBodySet.maintain_status_block st0 handle rb0).2.1
        = st0.active_kinematic_set ++ [handle] ∧
      (RigidBodySet.maintain_status_block st0 handle rb0).1.active_set_id
        = st0.active_kinematic_set.length ∧
      rb0.body_status = BodyStatus.Kinematic ∧
      (∀ k, st0.active_kinematic_set.get? k ≠ some handle))) := by
  have hmemne : ∀ (set2 : List RigidBodyHandle) (st2 : BodyStatus),
      activeSetOk st0.bodies set2 st2 → rb0.body_status ≠ st2 →
      ∀ k, set2.get? k ≠ some handle := by
    intro set2 st2 hok hstne k hk
    obtain ⟨rb2, hres2, _, hst3⟩ := activeSetOk_mem_spec st0.bodies set2 st2
      k handle hok hk
    rw [hres, Option.some.injEq] at hres2
    exact hstne (by rw [hres2]; exact hst3)
  unfold RigidBodySet.maintain_status_block
  by_cases hbs : rb0.changes.body_status = true
  · rw [if_pos hbs]
    cases hst2 : rb0.body_status with
    | Dynamic =>
      dsimp only
      rw [if_neg (hmemne st0.active_kinematic_set BodyStatus.Kinematic hkin
        (by rw [hst2]; exact fun hc => BodyStatus.noConfusion hc)
        rb0.active_set_id)]
      exact ⟨rfl, rfl, hst2, Or.inl ⟨rfl, rfl⟩⟩
    | Kinematic =>
      dsimp only
      rw [if_neg (hmemne st0.active_dynamic_set BodyStatus.Dynamic hdyn
        (by rw [hst2]; exact fun hc => BodyStatus.noConfusion hc)
        rb0.active_set_id)]
      by_cases hkg2 : st0.active_kinematic_set.get? rb0.active_set_id
          = some handle
      · rw [if_pos hkg2]
        exact ⟨rfl, rfl, hst2, Or.inl ⟨rfl, rfl⟩⟩
      · rw [if_neg hkg2]
        exact ⟨rfl, rfl, rfl, Or.inr ⟨rfl, rfl, rfl,
          activeSetOk_not_mem st0.bodies _ _ handle rb0 hkin hres hkg2⟩⟩
    | Static =>
      dsimp only
      exact ⟨rfl, rfl, hst2, Or.inl ⟨rfl, rfl⟩⟩
  · rw [if_neg hbs]
    exact ⟨rfl, rfl, rfl, Or.inl ⟨rfl, rfl⟩⟩

theorem maintain_position_block_spec (st0 : RigidBodySet.MaintainState)
    (handle : RigidBodyHandle) (rbA : RigidBody)
    (kinA : List RigidBodyHandle) :
    (RigidBodySet.maintain_position_block st0 handle rbA kinA).1.body_status
      = rbA.body_status ∧
    (((RigidBodySet.maintain_position_block st0 handle rbA kinA).2.1 = kinA ∧
      (RigidBodySet.maintain_position_block st0 handle rbA
        kinA).1.active_set_id = rbA.active_set_id) ∨
     ((RigidBodySet.maintain_position_block st0 handle rbA kinA).2.1
        = kinA ++ [handle] ∧
      (RigidBodySet.maintain_position_block st0 handle rbA
        kinA).1.active_set_id = kinA.length ∧
      rbA.body_status = BodyStatus.Kinematic ∧
      kinA.get? rbA.active_set_id ≠ some handle)) := by
  unfold RigidBodySet.maintain_position_block
  by_cases hpc : (rbA.changes.position || rbA.changes.colliders) = true
  · rw [if_pos hpc]
    dsimp only
    by_cases hbk : rbA.is_kinematic ∧
        kinA.get? rbA.active_set_id ≠ some handle
    · rw [if_pos hbk]
      exact ⟨rfl, Or.inr ⟨rfl, rfl, hbk.1, hbk.2⟩⟩
    · rw [if_neg hbk]
      exact ⟨rfl, Or.inl ⟨rfl, rfl⟩⟩
  · rw [if_neg hpc]
    exact ⟨rfl, Or.inl ⟨rfl, rfl⟩⟩

theorem maintain_sleep_block_spec (handle : RigidBodyHandle) (rbB : RigidBody)
    (dynA : List RigidBodyHandle) :
    (RigidBodySet.maintain_sleep_block handle rbB dynA).1.body_status
      = rbB.body_status ∧
    (((RigidBodySet.maintain_sleep_block handle rbB dynA).2 = dynA ∧
      (RigidBodySet.maintain_sleep_block handle rbB dynA).1.active_set_id
        = rbB.active_set_id) ∨
     ((RigidBodySet.maintain_sleep_block handle rbB dynA).2
        = dynA ++ [handle] ∧
      (RigidBodySet.maintain_sleep_block handle rbB dynA).1.active_set_id
        = dynA.length ∧
      rbB.body_status = BodyStatus.Dynamic ∧
      dynA.get? rbB.active_set_id ≠ some handle)) := by
  unfold RigidBodySet.maintain_sleep_block
  by_cases hcs : rbB.changes.sleep = true ∧ ¬ rbB.is_sleeping ∧
      rbB.is_dynamic ∧ dynA.get? rbB.active_set_id ≠ some handle
  · rw [if_pos hcs]
    exact ⟨rfl, Or.inr ⟨rfl, rfl, hcs.2.2.1, hcs.2.2.2⟩⟩
  · rw [if_neg hcs]
    exact ⟨rfl, Or.inl ⟨rfl, rfl⟩⟩

theorem maintain_one_preserves (st0 : RigidBodySet.MaintainState)
    (handle : RigidBodyHandle)
    (hdyn : activeSetOk st0.bodies st0.active_dynamic_set BodyStatus.Dynamic)
    (hkin : activeSetOk st0.bodies st0.active_kinematic_set
      BodyStatus.Kinematic) :
    activeSetOk (RigidBodySet.maintain_one st0 handle).bodies
      (RigidBodySet.maintain_one st0 handle).active_dynamic_set
      BodyStatus.Dynamic ∧
    activeSetOk (RigidBodySet.maintain_one st0 handle).bodies
      (RigidBodySet.maintain_one st0 handle).active_kinematic_set
      BodyStatus.Kinematic := by
  unfold RigidBodySet.maintain_one
  cases hres : st0.bodies.get handle with
  | none => exact ⟨hdyn, hkin⟩
  | some rb0 =>
    dsimp only
    have hAspec := maintain_status_block_spec st0 handle rb0 hdyn hkin hres
    have hBspec := maintain_position_block_spec st0 handle
      (RigidBodySet.maintain_status_block st0 handle rb0).1
      (RigidBodySet.maintain_status_block st0 handle rb0).2.1
    rcases hA : RigidBodySet.maintain_status_block st0 handle rb0 with
      ⟨rbA, kinA, dynA, fa⟩
    rw [hA] at hAspec hBspec
    dsimp only at hAspec hBspec ⊢
    have hCspec := maintain_sleep_block_spec handle
      (RigidBodySet.maintain_position_block st0 handle rbA kinA).1 dynA
    rcases hB : RigidBodySet.maintain_position_block st0 handle rbA kinA with
      ⟨rbB, kinB, miB⟩
    rw [hB] at hBspec hCspec
    dsimp only at hBspec hCspec ⊢
    rcases hC : RigidBodySet.maintain_sleep_block handle rbB dynA with
      ⟨rbC, dynC⟩
    rw [hC] at hCspec
    dsimp only at hCspec ⊢
    obtain ⟨hfa, hdynA, hstA, hkinA⟩ := hAspec
    obtain ⟨hstB, hkinB⟩ := hBspec
    obtain ⟨hstC, hdynC⟩ := hCspec
    subst hfa hdynA
    dsimp only
    rcases hkinA with ⟨hkA, hiA⟩ | ⟨hkA, hiA, hsk0, hnotk⟩
    · rcases hkinB with ⟨hkB, hiB⟩ | ⟨hkB, hiB, hskA, hgB⟩
      · rcases hdynC with ⟨hdC, hiC⟩ | ⟨hdC, hiC, hsdB, hgC⟩
        · subst hkB hkA hdC
          exact ⟨activeSetOk_write st0.bodies _ _ handle rb0 _ hres
              (hiC.trans (hiB.trans hiA)) (hstC.trans (hstB.trans hstA)) hdyn,
            activeSetOk_write st0.bodies _ _ handle rb0 _ hres
              (hiC.trans (hiB.trans hiA)) (hstC.trans (hstB.trans hstA)) hkin⟩
        · subst hkB hkA hdC
          have hsd0 : rb0.body_status = BodyStatus.Dynamic :=
            ((hstB.trans hstA).symm.trans hsdB)
          have hg0 : st0.active_dynamic_set.get? rb0.active_set_id
              ≠ some handle := by
            rw [← (hiB.trans hiA)]
            exact hgC
          refine ⟨activeSetOk_write_append st0.bodies _ _ handle rb0 _ hres
            hdyn
            (activeSetOk_not_mem st0.bodies _ _ handle rb0 hdyn hres hg0)
            hiC (hstC.trans hsdB), ?_⟩
          exact activeSetOk_modify_status_ne st0.bodies _ _ handle _ rb0 hres
            (by rw [hsd0]; exact fun hc => BodyStatus.noConfusion hc) hkin
      · rcases hdynC with ⟨hdC, hiC⟩ | ⟨hdC, hiC, hsdB, hgC⟩
        · subst hkB hkA hdC
          have hsk0 : rb0.body_status = BodyStatus.Kinematic :=
            hstA.symm.trans hskA
          have hg0 : st0.active_kinematic_set.get? rb0.active_set_id
              ≠ some handle := by
            rw [← hiA]
            exact hgB
          refine ⟨?_, activeSetOk_write_append st0.bodies _ _ handle rb0 _
            hres hkin
            (activeSetOk_not_mem st0.bodies _ _ handle rb0 hkin hres hg0)
            (hiC.trans hiB) (hstC.trans (hstB.trans hskA))⟩
          exact activeSetOk_modify_status_ne st0.bodies _ _ handle _ rb0 hres
            (by rw [hsk0]; exact fun hc => BodyStatus.noConfusion hc) hdyn
        · exact absurd ((hstB.symm.trans hsdB).symm.trans hskA)
            (fun hc => BodyStatus.noConfusion hc)
    · rcases hkinB with ⟨hkB, hiB⟩ | ⟨hkB, hiB, hskA, hgB⟩
      · rcases hdynC with ⟨hdC, hiC⟩ | ⟨hdC, hiC, hsdB, hgC⟩
        · subst hkB hkA hdC
          refine ⟨?_, activeSetOk_write_append st0.bodies _ _ handle rb0 _
            hres hkin hnotk (hiC.trans (hiB.trans hiA))
            (hstC.trans (hstB.trans (hstA.trans hsk0)))⟩
          exact activeSetOk_modify_status_ne st0.bodies _ _ handle _ rb0 hres
            (by rw [hsk0]; exact fun hc => BodyStatus.noConfusion hc) hdyn
        · have : rbB.body_status = BodyStatus.Kinematic :=
            hstB.trans (hstA.trans hsk0)
          exact absurd (this.symm.trans hsdB)
            (fun hc => BodyStatus.noConfusion hc)
      · rw [hkA, hiA] at hgB
        exact absurd (List.get?_concat_length _ _) hgB

theorem foldl_maintain_preserves (l : List RigidBodyHandle)
    (st0 : RigidBodySet.MaintainState)
    (hdyn : activeSetOk st0.bodies st0.active_dynamic_set BodyStatus.Dynamic)
    (hkin : activeSetOk st0.bodies st0.active_kinematic_set
      BodyStatus.Kinematic) :
    activeSetOk (l.foldl RigidBodySet.maintain_one st0).bodies
      (l.foldl RigidBodySet.maintain_one st0).active_dynamic_set
      BodyStatus.Dynamic ∧
    activeSetOk (l.foldl RigidBodySet.maintain_one st0).bodies
      (l.foldl RigidBodySet.maintain_one st0).active_kinematic_set
      BodyStatus.Kinematic := by
  induction l generalizing st0 with
  | nil => exact ⟨hdyn, hkin⟩
  | cons h rest ih =>
    rw [List.foldl_cons]
    obtain ⟨h1, h2⟩ := maintain_one_preserves st0 h hdyn hkin
    exact ih _ h1 h2

theorem handle_user_changes_preserves_WF (s : RigidBodySet) (hwf : WF s) :
    WF (RigidBodySet.handle_user_changes s) := by
  obtain ⟨hdyn, hkin⟩ := hwf
  have hfold := foldl_maintain_preserves
    (if s.modified_all_bodies then s.modified_bodies ++ s.bodies.occupiedHandles
     else s.modified_bodies)
    ⟨s.bodies, s.modified_inactive_set, s.active_kinematic_set,
      s.active_dynamic_set⟩ hdyn hkin
  exact ⟨hfold.1, hfold.2⟩

theorem modify_proj_f (bodies : Arena) (h : RigidBodyHandle)
    (rb : RigidBody) (f : RigidBody → RigidBody)
    (hg : bodies.get h = some rb)
    (hid : (f rb).active_set_id = rb.active_set_id)
    (hst : (f rb).body_status = rb.body_status) (h2 : RigidBodyHandle) :
    ((bodies.modifyBody h f).get h2).map
        (fun rb => (rb.active_set_id, rb.body_status))
      = (bodies.get h2).map (fun rb => (rb.active_set_id, rb.body_status)) := by
  by_cases he : h2 = h
  · subst he
    rw [Arena.get_modifyBody_self, hg]
    simp [hid, hst]
  · rw [Arena.get_modifyBody_ne _ _ _ _ he]

theorem drain_foldl_none (E : RigidBody → ℚ) (l : List RigidBodyHandle) :
    l.foldl (RigidBodySet.drainStep E) none = none := by
  induction l with
  | nil => rfl
  | cons h t ih => exact ih

theorem drainStep_some (E : RigidBody → ℚ) (b0 : Arena)
    (cs0 st0 : List RigidBodyHandle) (h : RigidBodyHandle) :
    RigidBodySet.drainStep E (some (b0, cs0, st0)) h =
      match b0.get h with
      | none => none
      | some rb =>
        if (rb.update_energy E).activation.energy ≤
            (rb.update_energy E).activation.threshold then
          some (b0.modifyBody h
              (fun _ => { rb.update_energy E with activation :=
                { (rb.update_energy E).activation with sleeping := true } }),
            cs0 ++ [h], st0)
        else some (b0.modifyBody h (fun _ => rb.update_energy E), cs0,
          h :: st0) := by
  unfold RigidBodySet.drainStep
  rfl

theorem drain_foldl_proj (E : RigidBody → ℚ) :
    ∀ (l : List RigidBodyHandle) (b0 : Arena)
      (cs0 st0 : List RigidBodyHandle)
      (res : Arena × List RigidBodyHandle × List RigidBodyHandle),
    l.foldl (RigidBodySet.drainStep E) (some (b0, cs0, st0)) = some res →
    ∀ h2, (res.1.get h2).map (fun rb => (rb.active_set_id, rb.body_status))
      = (b0.get h2).map (fun rb => (rb.active_set_id, rb.body_status)) := by
  intro l
  induction l with
  | nil =>
    intro b0 cs0 st0 res hres h2
    rw [List.foldl_nil, Option.some.injEq] at hres
    rw [← hres]
  | cons h t ih =>
    intro b0 cs0 st0 res hres h2
    rw [List.foldl_cons, drainStep_some] at hres
    cases hg : b0.get h with
    | none =>
      rw [hg] at hres
      dsimp only at hres
      rw [drain_foldl_none] at hres
      exact absurd hres (by simp)
    | some rb =>
      rw [hg] at hres
      dsimp only at hres
      split at hres
      · have := ih _ _ _ _ hres h2
        rw [this]
        refine modify_proj_f b0 h rb _ hg ?_ ?_ h2 <;> rfl
      · have := ih _ _ _ _ hres h2
        rw [this]
        refine modify_proj_f b0 h rb _ hg ?_ ?_ h2 <;> rfl

theorem sleep_foldl_none (l : List RigidBodyHandle) :
    l.foldl RigidBodySet.sleepStep none = none := by
  induction l with
  | nil => rfl
  | cons h t ih => exact ih

theorem sleepStep_some (b0 : Arena) (h : RigidBodyHandle) :
    RigidBodySet.sleepStep (some b0) h =
      match b0.get h with
      | none => none
      | some b =>
        if b.activation.sleeping then some (b0.modifyBody h RigidBody.sleep)
        else some b0 := by
  unfold RigidBodySet.sleepStep
  rfl

theorem sleep_foldl_proj :
    ∀ (l : List RigidBodyHandle) (b0 : Arena) (res : Arena),
    l.foldl RigidBodySet.sleepStep (some b0) = some res →
    ∀ h2, (res.get h2).map (fun rb => (rb.active_set_id, rb.body_status))
      = (b0.get h2).map (fun rb => (rb.active_set_id, rb.body_status)) := by
  intro l
  induction l with
  | nil =>
    intro b0 res hres h2
    rw [List.foldl_nil, Option.some.injEq] at hres
    rw [← hres]
  | cons h t ih =>
    intro b0 res hres h2
    rw [List.foldl_cons, sleepStep_some] at hres
    cases hg : b0.get h with
    | none =>
      rw [hg] at hres
      dsimp only at hres
      rw [sleep_foldl_none] at hres
      exact absurd hres (by simp)
    | some rb =>
      rw [hg] at hres
      dsimp only at hres
      split at hres
      · have := ih _ _ hres h2
        rw [this]
        refine modify_proj_f b0 h rb _ hg ?_ ?_ h2 <;> rfl
      · exact ih _ _ hres h2

theorem head_append_of_ne_nil {α : Type} (l l2 : List α) (hne : l ≠ []) :
    (l ++ l2).head? = l.head? := by
  cases l with
  | nil => exact absurd rfl hne
  | cons a t => rfl

theorem island_traversal_spec (ts misz : ℕ) (colliders : ColliderSet)
    (np : NarrowPhase) (jg : JointGraph) (hmisz : 1 ≤ misz) :
    ∀ (fuel : ℕ) (bodies : Arena) (dyn : List RigidBodyHandle)
      (islands : List ℕ) (stack : List RigidBodyHandle) (marker : ℕ)
      (res : Arena × List RigidBodyHandle × List ℕ),
    RigidBodySet.island_traversal ts misz colliders np jg fuel bodies dyn
      islands stack marker = some res →
    (∀ k h, dyn.get? k = some h → ∃ rb, bodies.get h = some rb ∧
      rb.active_set_id = k ∧ rb.body_status = BodyStatus.Dynamic ∧
      rb.active_set_timestamp = ts) →
    islands ≠ [] →
    islands.head? = some 0 →
    List.Chain' (· < ·) islands →
    islands.getLast?.getD 0 ≤ dyn.length →
    (dyn ≠ [] → islands.getLast?.getD 0 < dyn.length) →
    ((∀ k h, res.2.1.get? k = some h → ∃ rb, res.1.get h = some rb ∧
        rb.active_set_id = k ∧ rb.body_status = BodyStatus.Dynamic ∧
        rb.active_set_timestamp = ts) ∧
     (∀ h2, (bodies.get h2).map (fun rb => rb.body_status)
         ≠ some BodyStatus.Dynamic → res.1.get h2 = bodies.get h2) ∧
     res.2.2 ≠ [] ∧
     res.2.2.head? = some 0 ∧
     List.Chain' (· < ·) res.2.2 ∧
     res.2.2.getLast?.getD 0 ≤ res.2.1.length ∧
     (res.2.1 ≠ [] → res.2.2.getLast?.getD 0 < res.2.1.length)) := by
  intro fuel
  induction fuel with
  | zero =>
    intro bodies dyn islands stack marker res hres hInv hne hhead hchain hle hlt
    cases stack with
    | nil =>
      simp only [RigidBodySet.island_traversal, Option.some.injEq] at hres
      subst hres
      exact ⟨hInv, fun h2 _ => rfl, hne, hhead, hchain, hle, hlt⟩
    | cons h st =>
      simp only [RigidBodySet.island_traversal] at hres
      exact absurd hres (by simp)
  | succ fuel ih =>
    intro bodies dyn islands stack marker res hres hInv hne hhead hchain hle hlt
    cases stack with
    | nil =>
      simp only [RigidBodySet.island_traversal, Option.some.injEq] at hres
      subst hres
      exact ⟨hInv, fun h2 _ => rfl, hne, hhead, hchain, hle, hlt⟩
    | cons h st =>
      simp only [RigidBodySet.island_traversal] at hres
      cases hg : bodies.get h with
      | none =>
        rw [hg] at hres
        exact absurd hres (by simp)
      | some rb =>
        rw [hg] at hres
        dsimp only at hres
        by_cases hskip : rb.active_set_timestamp = ts ∨ ¬ rb.is_dynamic
        · rw [if_pos hskip] at hres
          exact ih bodies dyn islands st marker res hres hInv hne hhead hchain
            hle hlt
        · rw [if_neg hskip] at hres
          push_neg at hskip
          obtain ⟨hts, hdynb⟩ := hskip
          have hnotmem : ∀ k, dyn.get? k ≠ some h := by
            intro k hk
            obtain ⟨rb2, hres2, _, _, hts2⟩ := hInv k h hk
            rw [hg, Option.some.injEq] at hres2
            exact hts (by rw [hres2]; exact hts2)
          have hgo : ∀ (islands2 : List ℕ) (marker2 : ℕ)
              (stack2 : List RigidBodyHandle),
              RigidBodySet.island_traversal ts misz colliders np jg fuel
                (bodies.modifyBody h (fun _ => { rb.wake_up false with
                  active_island_id := islands2.length - 1
                  active_set_id := dyn.length
                  active_set_offset := dyn.length - islands2.getLast?.getD 0
                  active_set_timestamp := ts }))
                (dyn ++ [h]) islands2 stack2 marker2 = some res →
              islands2 ≠ [] → islands2.head? = some 0 →
              List.Chain' (· < ·) islands2 →
              islands2.getLast?.getD 0 ≤ dyn.length →
              ((∀ k h2, res.2.1.get? k = some h2 → ∃ rb2,
                  res.1.get h2 = some rb2 ∧ rb2.active_set_id = k ∧
                  rb2.body_status = BodyStatus.Dynamic ∧
                  rb2.active_set_timestamp = ts) ∧
               (∀ h2, (bodies.get h2).map (fun rb => rb.body_status)
                   ≠ some BodyStatus.Dynamic → res.1.get h2 = bodies.get h2) ∧
               res.2.2 ≠ [] ∧
               res.2.2.head? = some 0 ∧
               List.Chain' (· < ·) res.2.2 ∧
               res.2.2.getLast?.getD 0 ≤ res.2.1.length ∧
               (res.2.1 ≠ [] → res.2.2.getLast?.getD 0 < res.2.1.length)) := by
            intro islands2 marker2 stack2 hres2 hne2 hhead2 hchain2 hle2
            have hInv2 : ∀ k h2, (dyn ++ [h]).get? k = some h2 →
                ∃ rb2, (bodies.modifyBody h (fun _ => { rb.wake_up false with
                  active_island_id := islands2.length - 1
                  active_set_id := dyn.length
                  active_set_offset := dyn.length - islands2.getLast?.getD 0
                  active_set_timestamp := ts })).get h2 = some rb2 ∧
                  rb2.active_set_id = k ∧ rb2.body_status = BodyStatus.Dynamic ∧
                  rb2.active_set_timestamp = ts := by
              intro k h2 hk
              rcases lt_trichotomy k dyn.length with hlt2 | heq2 | hgt2
              · rw [List.get?_append hlt2] at hk
                obtain ⟨rb2, hres3, hid3, hst3, hts3⟩ := hInv k h2 hk
                have hne3 : h2 ≠ h := fun hc => hnotmem k (hc ▸ hk)
                rw [Arena.get_modifyBody_ne _ _ _ _ hne3]
                exact ⟨rb2, hres3, hid3, hst3, hts3⟩
              · subst heq2
                rw [List.get?_concat_length, Option.some.injEq] at hk
                subst hk
                rw [Arena.get_modifyBody_self, hg]
                exact ⟨_, rfl, rfl, hdynb, rfl⟩
              · have hnone : (dyn ++ [h]).get? k = none := by
                  apply List.get?_eq_none.mpr
                  simp only [List.length_append, List.length_singleton]
                  omega
                rw [hnone] at hk
                exact absurd hk (by simp)
            have hres4 := ih _ _ _ _ _ _ hres2 hInv2 hne2 hhead2 hchain2
              (le_trans hle2 (by simp))
              (fun _ => lt_of_le_of_lt hle2 (by simp))
            refine ⟨hres4.1, ?_, hres4.2.2⟩
            intro h2 hstat
            have hne3 : h2 ≠ h := by
              intro hc
              subst hc
              rw [hg] at hstat
              exact hstat (by rw [Option.map_some', hdynb])
            have hstep : (bodies.modifyBody h (fun _ => { rb.wake_up false with
                active_island_id := islands2.length - 1
                active_set_id := dyn.length
                active_set_offset := dyn.length - islands2.getLast?.getD 0
                active_set_timestamp := ts })).get h2 = bodies.get h2 :=
              Arena.get_modifyBody_ne _ _ _ _ hne3
            rw [← hstep]
            refine hres4.2.1 h2 ?_
            rw [hstep]
            exact hstat
          by_cases hm : st.length < marker
          · rw [if_pos hm] at hres
            by_cases hga : misz ≤ dyn.length - islands.getLast?.getD 0
            · rw [if_pos hga] at hres
              dsimp only at hres
              have hlastlt : islands.getLast?.getD 0 < dyn.length := by omega
              refine hgo _ _ _ hres (by simp) ?_ ?_ ?_
              · rw [head_append_of_ne_nil _ _ hne]
                exact hhead
              · refine List.chain'_append.mpr ⟨hchain, List.chain'_singleton _,
                  ?_⟩
                intro x hx y hy
                simp only [List.head?_cons, Option.mem_def,
                  Option.some.injEq] at hy
                subst hy
                have hxval : islands.getLast?.getD 0 = x := by
                  rw [Option.mem_def] at hx
                  rw [hx]
                  rfl
                omega
              · rw [List.getLast?_concat]
                rfl
            · rw [if_neg hga] at hres
              dsimp only at hres
              exact hgo _ _ _ hres hne hhead hchain hle
          · rw [if_neg hm] at hres
            dsimp only at hres
            exact hgo _ _ _ hres hne hhead hchain hle

theorem update_active_set_spec (E : RigidBody → ℚ) (s : RigidBodySet)
    (colliders : ColliderSet) (np : NarrowPhase) (jg : JointGraph)
    (misz fuel : ℕ) (s2 : RigidBodySet)
    (hupd : RigidBodySet.update_active_set_with_contacts E s colliders np jg
      misz fuel = some s2) :
    (WF s → WF s2) ∧
    s2.active_islands.head? = some 0 ∧
    s2.active_islands.getLast? = some s2.active_dynamic_set.length ∧
    List.Chain' (· ≤ ·) s2.active_islands ∧
    (s2.active_dynamic_set ≠ [] → List.Chain' (· < ·) s2.active_islands) := by
  unfold RigidBodySet.update_active_set_with_contacts at hupd
  by_cases hmz : misz = 0
  · rw [if_pos hmz] at hupd
    exact absurd hupd (by simp)
  · rw [if_neg hmz] at hupd
    dsimp only at hupd
    split at hupd
    · exact absurd hupd (by simp)
    rename_i bodies1 can1 stack1 heq1
    split at hupd
    · exact absurd hupd (by simp)
    rename_i stack2 heq2
    split at hupd
    · exact absurd hupd (by simp)
    rename_i bodies2 dyn2 islands2 heq3
    split at hupd
    · exact absurd hupd (by simp)
    rename_i bodies3 heq4
    rw [Option.some.injEq] at hupd
    subst hupd
    obtain ⟨hInvR, hPresR, hneR, hheadR, hchainR, hleR, hltR⟩ :=
      island_traversal_spec (s.active_set_timestamp + 1) misz colliders np jg
        (by omega) fuel bodies1 [] [0] stack2 (max stack2.length 1 - 1)
        (bodies2, dyn2, islands2) heq3
        (fun k h hk => absurd hk (by simp))
        (by simp) rfl (List.chain'_singleton _) (by simp)
        (fun hc => absurd rfl hc)
    dsimp only at hInvR hPresR hneR hheadR hchainR hleR hltR
    refine ⟨?_, ?_, ?_, ?_, ?_⟩
    · intro hwf
      obtain ⟨hdyn, hkin⟩ := hwf
      constructor
      · rw [activeSetOk_iff_get?]
        intro k h hk
        obtain ⟨rbX, hresX, hidX, hstX, _⟩ := hInvR k h hk
        have hproj := sleep_foldl_proj can1 bodies2 bodies3 heq4 h
        rw [hresX] at hproj
        show (bodies3.get h).map (fun rb => (rb.active_set_id, rb.body_status))
          = some (k, BodyStatus.Dynamic)
        rw [hproj]
        simp [hidX, hstX]
      · rw [activeSetOk_iff_get?]
        intro k h hk
        have hk0 := (activeSetOk_iff_get? s.bodies s.active_kinematic_set
          BodyStatus.Kinematic).mp hkin k h hk
        have hd := drain_foldl_proj E (s.active_dynamic_set.reverse) s.bodies
          [] [] (bodies1, can1, stack1) heq1 h
        dsimp only at hd
        have hb1 : (bodies1.get h).map
            (fun rb => (rb.active_set_id, rb.body_status))
            = some (k, BodyStatus.Kinematic) := by
          rw [hd]
          exact hk0
        have hstat : (bodies1.get h).map (fun rb => rb.body_status)
            ≠ some BodyStatus.Dynamic := by
          cases ho : bodies1.get h with
          | none => rw [ho] at hb1; exact absurd hb1 (by simp)
          | some rbY =>
            rw [ho] at hb1
            simp only [Option.map_some', Option.some.injEq,
              Prod.mk.injEq] at hb1
            intro hc
            simp only [Option.map_some', Option.some.injEq] at hc
            rw [hb1.2] at hc
            exact BodyStatus.noConfusion hc
        have hpres2 := hPresR h hstat
        have hproj := sleep_foldl_proj can1 bodies2 bodies3 heq4 h
        show (bodies3.get h).map (fun rb => (rb.active_set_id, rb.body_status))
          = some (k, BodyStatus.Kinematic)
        rw [hproj, hpres2]
        exact hb1
    · show (islands2 ++ [dyn2.length]).head? = some 0
      rw [head_append_of_ne_nil _ _ hneR]
      exact hheadR
    · show (islands2 ++ [dyn2.length]).getLast? = some dyn2.length
      exact List.getLast?_concat _
    · show List.Chain' (· ≤ ·) (islands2 ++ [dyn2.length])
      refine List.chain'_append.mpr ⟨List.Chain'.imp (fun a b => le_of_lt)
        hchainR, List.chain'_singleton _, ?_⟩
      intro x hx y hy
      simp only [List.head?_cons, Option.mem_def, Option.some.injEq] at hy
      subst hy
      have hxval : islands2.getLast?.getD 0 = x := by
        rw [Option.mem_def] at hx
        rw [hx]
        rfl
      omega
    · intro hdne
      show List.Chain' (· < ·) (islands2 ++ [dyn2.length])
      have hlt2 := hltR hdne
      refine List.chain'_append.mpr ⟨hchainR, List.chain'_singleton _, ?_⟩
      intro x hx y hy
      simp only [List.head?_cons, Option.mem_def, Option.some.injEq] at hy
      subst hy
      have hxval : islands2.getLast?.getD 0 = x := by
        rw [Option.mem_def] at hx
        rw [hx]
        rfl
      omega

theorem sorted_get_le (l : List ℕ) (hch : List.Chain' (· ≤ ·) l) :
    ∀ i1 i2 a1 a2, i1 ≤ i2 → l.get? i1 = some a1 → l.get? i2 = some a2 →
      a1 ≤ a2 := by
  intro i1 i2 a1 a2 hle hg1 hg2
  rcases eq_or_lt_of_le hle with heq | hlt
  · subst heq
    rw [hg1, Option.some.injEq] at hg2
    exact le_of_eq hg2
  · have hp := List.chain'_iff_pairwise.mp hch
    obtain ⟨hl1, he1⟩ := List.get?_eq_some.mp hg1
    obtain ⟨hl2, he2⟩ := List.get?_eq_some.mp hg2
    have := List.pairwise_iff_get.mp hp ⟨i1, hl1⟩ ⟨i2, hl2⟩ hlt
    rw [he1, he2] at this
    exact this

theorem sorted_crossing_aux :
    ∀ (l : List ℕ) (a0 L j : ℕ), l.head? = some a0 → l.getLast? = some L →
    List.Chain' (· ≤ ·) l → a0 ≤ j → j < L →
    ∃ i a b, l.get? i = some a ∧ l.get? (i + 1) = some b ∧ a ≤ j ∧ j < b := by
  intro l
  induction l with
  | nil =>
    intro a0 L j hh _ _ _ _
    exact absurd hh (by simp)
  | cons x t ih =>
    intro a0 L j hh hlast hch ha0 hjL
    rw [List.head?_cons, Option.some.injEq] at hh
    subst hh
    cases t with
    | nil =>
      rw [List.getLast?_singleton, Option.some.injEq] at hlast
      subst hlast
      omega
    | cons y t2 =>
      by_cases hjy : j < y
      · exact ⟨0, x, y, rfl, rfl, ha0, hjy⟩
      · rw [List.getLast?_cons_cons] at hlast
        rw [List.chain'_cons] at hch
        obtain ⟨i, a, b, hgi, hgi1, hab⟩ := ih y L j rfl hlast hch.2
          (by omega) hjL
        exact ⟨i + 1, a, b, hgi, hgi1, hab⟩

/-- C1 (amended): after every completing call to
`RigidBodySet::update_active_set_with_contacts`, `active_islands` starts
at 0, ends at `active_dynamic_set.length`, and is nondecreasing; it is
strictly increasing whenever the awake dynamic set is nonempty (with no
awake dynamic bodies it is `[0, 0]`, which is not strictly increasing);
and the half-open ranges delimited by consecutive entries are pairwise
disjoint and cover the awake dynamic set. -/
theorem update_active_islands_partition (E : RigidBody → ℚ)
    (s : RigidBodySet) (colliders : ColliderSet) (np : NarrowPhase)
    (jg : JointGraph) (misz fuel : ℕ) (s2 : RigidBodySet)
    (hupd : RigidBodySet.update_active_set_with_contacts E s colliders np jg
      misz fuel = some s2) :
    s2.active_islands.head? = some 0 ∧
    s2.active_islands.getLast? = some s2.active_dynamic_set.length ∧
    List.Chain' (· ≤ ·) s2.active_islands ∧
    (s2.active_dynamic_set ≠ [] → List.Chain' (· < ·) s2.active_islands) ∧
    (∀ j, j < s2.active_dynamic_set.length → ∃ i a b,
      s2.active_islands.get? i = some a ∧
      s2.active_islands.get? (i + 1) = some b ∧ a ≤ j ∧ j < b) ∧
    (∀ i1 i2 a1 b1 a2 b2 j, i1 < i2 →
      s2.active_islands.get? i1 = some a1 →
      s2.active_islands.get? (i1 + 1) = some b1 →
      s2.active_islands.get? i2 = some a2 →
      s2.active_islands.get? (i2 + 1) = some b2 →
      a1 ≤ j → j < b1 → ¬ (a2 ≤ j ∧ j < b2)) := by
  obtain ⟨_, hhead, hlast, hchain, hstrict⟩ :=
    update_active_set_spec E s colliders np jg misz fuel s2 hupd
  refine ⟨hhead, hlast, hchain, hstrict, ?_, ?_⟩
  · intro j hj
    exact sorted_crossing_aux s2.active_islands 0
      s2.active_dynamic_set.length j hhead hlast hchain (Nat.zero_le j) hj
  · intro i1 i2 a1 b1 a2 b2 j hi hg1 hg11 hg2 hg21 haj hjb hc
    have hba := sorted_get_le s2.active_islands hchain (i1 + 1) i2 b1 a2
      (by omega) hg11 hg2
    omega

/-- Counterexample to C1 as stated: on a store with no bodies (and hence
an empty awake dynamic set), `update_active_set_with_contacts` returns
`active_islands = [0, 0]`, which is not strictly increasing. -/
theorem update_active_islands_not_strict_cex :
    RigidBodySet.update_active_set_with_contacts (fun _ => 0)
        ⟨⟨[], 0⟩, [], [], [], [], 0, [], false, [], []⟩
        ⟨fun _ => (0, 0)⟩ ⟨fun _ => []⟩ ⟨fun _ => []⟩ 1 1
      = some ⟨⟨[], 0⟩, [], [], [], [0, 0], 1, [], false, [], []⟩ ∧
    ¬ List.Chain' (· < ·)
      (RigidBodySet.mk ⟨[], 0⟩ [] [] [] [0, 0] 1 [] false [] []).active_islands
    := ⟨rfl, by simp [List.chain'_cons]⟩

/-- Witness for the amended C1 at a concrete completing call (the empty
store): the returned islands vector is `[0, 0]` with head 0 and last
equal to the length of the (empty) awake dynamic set. -/
theorem update_active_islands_partition_witness :
    (RigidBodySet.mk ⟨[], 0⟩ [] [] [] [0, 0] 1 [] false [] []).active_islands.head?
      = some 0 ∧
    (RigidBodySet.mk ⟨[], 0⟩ [] [] [] [0, 0] 1 [] false [] []).active_islands.getLast?
      = some (RigidBodySet.mk ⟨[], 0⟩ [] [] [] [0, 0] 1 [] false []
        []).active_dynamic_set.length :=
  ⟨(update_active_islands_partition (fun _ => 0)
      ⟨⟨[], 0⟩, [], [], [], [], 0, [], false, [], []⟩
      ⟨fun _ => (0, 0)⟩ ⟨fun _ => []⟩ ⟨fun _ => []⟩ 1 1
      ⟨⟨[], 0⟩, [], [], [], [0, 0], 1, [], false, [], []⟩ rfl).1,
   (update_active_islands_partition (fun _ => 0)
      ⟨⟨[], 0⟩, [], [], [], [], 0, [], false, [], []⟩
      ⟨fun _ => (0, 0)⟩ ⟨fun _ => []⟩ ⟨fun _ => []⟩ 1 1
      ⟨⟨[], 0⟩, [], [], [], [0, 0], 1, [], false, [], []⟩ rfl).2.1⟩

/-- C2: every store-maintenance operation — `insert`, `remove`,
`wake_up`, `handle_user_changes` and `update_active_set_with_contacts` —
preserves the active-set consistency invariant: whenever
`active_dynamic_set[k] = h` afterwards, the body stored at `h` has
`active_set_id = k` (and dynamic status), and likewise for
`active_kinematic_set`; in particular, after a swap-remove from an
active list the displaced body's `active_set_id` is re-patched to its
new position. -/
theorem store_ops_preserve_active_set_consistency (s : RigidBodySet)
    (hwf : WF s) :
    (∀ rb0, WF (s.insert rb0).1) ∧
    (∀ handle, WF (s.remove handle).1) ∧
    (∀ handle strong, WF (s.wake_up handle strong)) ∧
    WF (RigidBodySet.handle_user_changes s) ∧
    (∀ (E : RigidBody → ℚ) (colliders : ColliderSet) (np : NarrowPhase)
      (jg : JointGraph) (misz fuel : ℕ) (s2 : RigidBodySet),
      RigidBodySet.update_active_set_with_contacts E s colliders np jg misz
        fuel = some s2 → WF s2) :=
  ⟨fun rb0 => insert_preserves_WF s rb0 hwf,
   fun handle => remove_preserves_WF s handle hwf,
   fun handle strong => wake_up_preserves_WF s handle strong hwf,
   handle_user_changes_preserves_WF s hwf,
   fun E colliders np jg misz fuel s2 hupd =>
     (update_active_set_spec E s colliders np jg misz fuel s2 hupd).1 hwf⟩

/-- Witness for C2 at a concrete consistent store: the one-body store
whose only body is dynamic and registered at position 0 of the dynamic
active set; inserting a fresh body preserves the invariant. -/
theorem store_ops_preserve_active_set_consistency_witness :
    WF ((RigidBodySet.insert
      ⟨⟨[⟨0, some default⟩], 1⟩, [(0, 0)], [], [], [], 0, [], false, [], []⟩
      default).1) :=
  (store_ops_preserve_active_set_consistency
    ⟨⟨[⟨0, some default⟩], 1⟩, [(0, 0)], [], [], [], 0, [], false, [], []⟩
    (by constructor <;> (intro k; fin_cases k <;> rfl))).1 default
